import Mathlib

/-
  Verification development for the imgio image-I/O library.

  Shallow embedding of the format registry, the geometric helpers, the
  per-texel format engine, the KTX1/KTX2 container codecs and the PNG
  writer front-end, translated from src/src/imgio/format.cpp,
  src/src/imgio/ktx.cpp, src/src/imgio/png.cpp, src/include/imgio/format.hpp
  and the in-memory provider implementation.

  Machine integers are modelled as Nat (with explicit wrap-around where the
  C++ computation is performed in a fixed-width type), C++ doubles are
  modelled as exact rationals, and fallible operations return Except.
-/

namespace Imgio

set_option maxRecDepth 16000

instance {ε α : Type} [DecidableEq ε] [DecidableEq α] : DecidableEq (Except ε α) := fun a b =>
  match a, b with
  | .error e, .error f =>
    match decEq e f with
    | isTrue h => isTrue (congrArg Except.error h)
    | isFalse h => isFalse (fun hh => h (Except.error.inj hh))
  | .error _, .ok _ => isFalse (fun hh => Except.noConfusion hh)
  | .ok _, .error _ => isFalse (fun hh => Except.noConfusion hh)
  | .ok x, .ok y =>
    match decEq x y with
    | isTrue h => isTrue (congrArg Except.ok h)
    | isFalse h => isFalse (fun hh => h (Except.ok.inj hh))

/-- Three-component unsigned extent, mirroring nytl Vec3ui. -/
structure Vec3ui where
  x : Nat
  y : Nat
  z : Nat
deriving DecidableEq, Repr

/-- mipSize from format.cpp: per-axis max(size >> l, 1). -/
def mipSize (size : Vec3ui) (l : Nat) : Vec3ui :=
  ⟨max (size.x >>> l) 1, max (size.y >>> l) 1, max (size.z >>> l) 1⟩

/-- numMipLevels from format.cpp: 1 + floor(log2(max component)).
For a positive argument, floor of the real log2 equals Nat.log 2. -/
def numMipLevels (extent : Vec3ui) : Nat :=
  1 + Nat.log 2 (max extent.x (max extent.y extent.z))

/-- tightLayerTexelNumber from format.hpp:
z * (extent.y * extent.x) + y * extent.x + x. -/
def tightLayerTexelNumber (extent : Vec3ui) (x y z : Nat) : Nat :=
  z * (extent.y * extent.x) + y * extent.x + x

/-- Texel count of one mip level across numLayers layers:
the summand of the loops in tightTexelCount and tightTexelNumber. -/
def mipTexels (extent : Vec3ui) (numLayers i : Nat) : Nat :=
  let ie := mipSize extent i
  ie.x * ie.y * ie.z * numLayers

/-- Sum of mipTexels for i in [firstMip, firstMip + count). -/
def mipTexelSum (extent : Vec3ui) (numLayers firstMip : Nat) : Nat → Nat
  | 0 => 0
  | n + 1 => mipTexelSum extent numLayers firstMip n + mipTexels extent numLayers (firstMip + n)

/-- tightTexelCount from format.cpp. -/
def tightTexelCount (extent : Vec3ui) (numLayers numMips firstMip : Nat) : Nat :=
  mipTexelSum extent numLayers firstMip numMips

/-- tightTexelNumber from format.cpp. Note that the within-mip term is
computed by the source as tightLayerTexelNumber(extent, x, y, z), i.e.
with the full level-0 extent, not with the mip-level size. -/
def tightTexelNumber (extent : Vec3ui) (numLayers mip layer x y z firstMip : Nat) : Nat :=
  let ie := mipSize extent mip
  mipTexelSum extent numLayers firstMip (mip - firstMip)
    + layer * (ie.x * ie.y * ie.z)
    + tightLayerTexelNumber extent x y z

/-- The texel-number formula as written in the specification (section 3):
the within-mip term uses the dimensions of mip level m,
z * h(m) * w(m) + y * w(m) + x. -/
def tightTexelNumberSpec (extent : Vec3ui) (numLayers mip layer x y z firstMip : Nat) : Nat :=
  let ie := mipSize extent mip
  mipTexelSum extent numLayers firstMip (mip - firstMip)
    + layer * (ie.x * ie.y * ie.z)
    + tightLayerTexelNumber ie x y z

/-- ceilDivide from allocation.hpp: (num + denom - 1) / denom. -/
def ceilDivide (num denom : Nat) : Nat :=
  (num + denom - 1) / denom

/-- align from allocation.hpp: rounds offset up to a multiple of alignment;
an offset or alignment of zero leaves the offset unchanged. -/
def align (offset alignment : Nat) : Nat :=
  if offset = 0 ∨ alignment = 0 then offset
  else if offset % alignment = 0 then offset
  else offset + (alignment - offset % alignment)

/- Format enumeration: the source enum `Format : u32` mirrors VkFormat.
Formats are modelled by their numeric enum value. Named constants are given
for the formats this development mentions explicitly. -/

namespace Format

def undefined : Nat := 0
def r4g4UnormPack8 : Nat := 1
def r8Unorm : Nat := 9
def r8Snorm : Nat := 10
def r8Srgb : Nat := 15
def r8g8Unorm : Nat := 16
def r8g8Srgb : Nat := 22
def r8g8b8Unorm : Nat := 23
def r8g8b8Srgb : Nat := 29
def b8g8r8Unorm : Nat := 30
def b8g8r8Srgb : Nat := 36
def r8g8b8a8Unorm : Nat := 37
def r8g8b8a8Snorm : Nat := 38
def r8g8b8a8Srgb : Nat := 43
def b8g8r8a8Unorm : Nat := 44
def b8g8r8a8Srgb : Nat := 50
def a8b8g8r8UnormPack32 : Nat := 51
def a8b8g8r8SnormPack32 : Nat := 52
def a8b8g8r8SrgbPack32 : Nat := 57
def a2r10g10b10SnormPack32 : Nat := 59
def a2b10g10r10SnormPack32 : Nat := 65
def r16Unorm : Nat := 70
def r16g16b16Unorm : Nat := 84
def r16g16b16a16Unorm : Nat := 91
def e5b9g9r9UfloatPack32 : Nat := 123
def d16Unorm : Nat := 124
def x8D24UnormPack32 : Nat := 125
def d32Sfloat : Nat := 126
def s8Uint : Nat := 127
def d16UnormS8Uint : Nat := 128
def d24UnormS8Uint : Nat := 129
def bc1RgbUnormBlock : Nat := 131
def bc1RgbSrgbBlock : Nat := 132
def bc7UnormBlock : Nat := 145
def bc7SrgbBlock : Nat := 146
def etc2R8g8b8SrgbBlock : Nat := 148
def astc4x4SrgbBlock : Nat := 158

end Format

/-- All values of the Format enumeration in format.hpp: the contiguous core
range 0..184 plus the extension ranges (multiplanar/422, PVRTC, ASTC sfloat,
and the two a4 pack16 formats). KHR aliases share the same values. -/
def allFormats : List Nat :=
  List.range 185
    ++ (List.range 34).map (fun i => 1000156000 + i)
    ++ (List.range 8).map (fun i => 1000054000 + i)
    ++ (List.range 14).map (fun i => 1000066000 + i)
    ++ [1000340000, 1000340001]

/-- toggleSRGB from format.cpp: swaps the seven 8-bit sRGB/UNORM pairs and
the bc7 pair; every other format is returned unchanged. -/
def toggleSRGB (f : Nat) : Nat :=
  if f = Format.r8Srgb then Format.r8Unorm
  else if f = Format.r8g8Srgb then Format.r8g8Unorm
  else if f = Format.r8g8b8Srgb then Format.r8g8b8Unorm
  else if f = Format.r8g8b8a8Srgb then Format.r8g8b8a8Unorm
  else if f = Format.b8g8r8a8Srgb then Format.b8g8r8a8Unorm
  else if f = Format.b8g8r8Srgb then Format.b8g8r8Unorm
  else if f = Format.a8b8g8r8SrgbPack32 then Format.a8b8g8r8UnormPack32
  else if f = Format.r8Unorm then Format.r8Srgb
  else if f = Format.r8g8Unorm then Format.r8g8Srgb
  else if f = Format.r8g8b8Unorm then Format.r8g8b8Srgb
  else if f = Format.r8g8b8a8Unorm then Format.r8g8b8a8Srgb
  else if f = Format.b8g8r8a8Unorm then Format.b8g8r8a8Srgb
  else if f = Format.b8g8r8Unorm then Format.b8g8r8Srgb
  else if f = Format.a8b8g8r8UnormPack32 then Format.a8b8g8r8SrgbPack32
  else if f = Format.bc7UnormBlock then Format.bc7SrgbBlock
  else if f = Format.bc7SrgbBlock then Format.bc7UnormBlock
  else f

/-- Modelled from the spec: FormatIsSRGB lives in format_utils.h, which is not
under src/. Per the spec the registry carries an sRGB flag from the Vulkan
format metadata; exactly the enumeration values whose names carry Srgb are
flagged. These are the seven 8-bit sRGB formats, the sRGB block-compressed
BC/ETC2/ASTC formats, and the sRGB PVRTC formats. -/
def sRGBFormats : List Nat :=
  [15, 22, 29, 36, 43, 50, 57,
   132, 134, 136, 138, 146, 148, 150, 152,
   158, 160, 162, 164, 166, 168, 170, 172, 174, 176, 178, 180, 182, 184,
   1000054004, 1000054005, 1000054006, 1000054007]

def isSRGB (f : Nat) : Bool :=
  sRGBFormats.contains f

/-- The formats on which toggleSRGB actually swaps sRGB-ness: the seven
8-bit pairs plus bc7. -/
def pairedSRGBFormats : List Nat :=
  [15, 22, 29, 36, 43, 50, 57, 146]

/-- Modelled from the spec: FormatTexelBlockExtent lives in format_utils.h,
which is not under src/. Per the spec, the block extent is {1,1,1} for all
uncompressed formats; BC, ETC2 and EAC blocks are 4x4x1, ASTC blocks carry
their extent in the name, PVRTC 2bpp blocks are 8x4x1 and 4bpp blocks 4x4x1. -/
def blockSize (f : Nat) : Vec3ui :=
  if 131 ≤ f ∧ f ≤ 156 then ⟨4, 4, 1⟩            -- bc*, etc2*, eac*
  else if f = 157 ∨ f = 158 then ⟨4, 4, 1⟩        -- astc4x4
  else if f = 159 ∨ f = 160 then ⟨5, 4, 1⟩        -- astc5x4
  else if f = 161 ∨ f = 162 then ⟨5, 5, 1⟩        -- astc5x5
  else if f = 163 ∨ f = 164 then ⟨6, 5, 1⟩        -- astc6x5
  else if f = 165 ∨ f = 166 then ⟨6, 6, 1⟩        -- astc6x6
  else if f = 167 ∨ f = 168 then ⟨8, 5, 1⟩        -- astc8x5
  else if f = 169 ∨ f = 170 then ⟨8, 6, 1⟩        -- astc8x6
  else if f = 171 ∨ f = 172 then ⟨8, 8, 1⟩        -- astc8x8
  else if f = 173 ∨ f = 174 then ⟨10, 5, 1⟩       -- astc10x5
  else if f = 175 ∨ f = 176 then ⟨10, 6, 1⟩       -- astc10x6
  else if f = 177 ∨ f = 178 then ⟨10, 8, 1⟩       -- astc10x8
  else if f = 179 ∨ f = 180 then ⟨10, 10, 1⟩      -- astc10x10
  else if f = 181 ∨ f = 182 then ⟨12, 10, 1⟩      -- astc12x10
  else if f = 183 ∨ f = 184 then ⟨12, 12, 1⟩      -- astc12x12
  else if f = 1000054000 ∨ f = 1000054004 then ⟨8, 4, 1⟩  -- pvrtc1 2bpp
  else if f = 1000054002 ∨ f = 1000054006 then ⟨8, 4, 1⟩  -- pvrtc2 2bpp
  else if f = 1000054001 ∨ f = 1000054005 then ⟨4, 4, 1⟩  -- pvrtc1 4bpp
  else if f = 1000054003 ∨ f = 1000054007 then ⟨4, 4, 1⟩  -- pvrtc2 4bpp
  else if f = 1000066000 then ⟨4, 4, 1⟩           -- astc sfloat share extents
  else if f = 1000066001 then ⟨5, 4, 1⟩
  else if f = 1000066002 then ⟨5, 5, 1⟩
  else if f = 1000066003 then ⟨6, 5, 1⟩
  else if f = 1000066004 then ⟨6, 6, 1⟩
  else if f = 1000066005 then ⟨8, 5, 1⟩
  else if f = 1000066006 then ⟨8, 6, 1⟩
  else if f = 1000066007 then ⟨8, 8, 1⟩
  else if f = 1000066008 then ⟨10, 5, 1⟩
  else if f = 1000066009 then ⟨10, 6, 1⟩
  else if f = 1000066010 then ⟨10, 8, 1⟩
  else if f = 1000066011 then ⟨10, 10, 1⟩
  else if f = 1000066012 then ⟨12, 10, 1⟩
  else if f = 1000066013 then ⟨12, 12, 1⟩
  else ⟨1, 1, 1⟩

/-- Modelled from the spec: FormatElementSize lives in format_utils.h, which
is not under src/. Element sizes (bytes per texel, or per block for
block-compressed formats) from the Vulkan format metadata, for the formats
this development evaluates concretely. -/
def formatElementSize (f : Nat) : Nat :=
  if f = 1 then 1                                     -- r4g4UnormPack8
  else if 2 ≤ f ∧ f ≤ 8 then 2                        -- 16-bit packed
  else if 9 ≤ f ∧ f ≤ 15 then 1                       -- r8
  else if 16 ≤ f ∧ f ≤ 22 then 2                      -- r8g8
  else if 23 ≤ f ∧ f ≤ 36 then 3                      -- r8g8b8 / b8g8r8
  else if 37 ≤ f ∧ f ≤ 69 then 4                      -- rgba8 / packed 32
  else if 70 ≤ f ∧ f ≤ 76 then 2                      -- r16
  else if 77 ≤ f ∧ f ≤ 83 then 4                      -- r16g16
  else if 84 ≤ f ∧ f ≤ 90 then 6                      -- r16g16b16
  else if 91 ≤ f ∧ f ≤ 97 then 8                      -- r16g16b16a16
  else if 98 ≤ f ∧ f ≤ 100 then 4                     -- r32
  else if 101 ≤ f ∧ f ≤ 103 then 8                    -- r32g32
  else if 104 ≤ f ∧ f ≤ 106 then 12                   -- r32g32b32
  else if 107 ≤ f ∧ f ≤ 109 then 16                   -- r32g32b32a32
  else if 110 ≤ f ∧ f ≤ 112 then 8                    -- r64
  else if 113 ≤ f ∧ f ≤ 115 then 16                   -- r64g64
  else if 116 ≤ f ∧ f ≤ 118 then 24                   -- r64g64b64
  else if 119 ≤ f ∧ f ≤ 121 then 32                   -- r64g64b64a64
  else if f = 122 ∨ f = 123 then 4                    -- b10g11r11 / e5b9g9r9
  else if f = 124 then 2                              -- d16Unorm
  else if f = 125 then 4                              -- x8D24UnormPack32
  else if f = 126 then 4                              -- d32Sfloat
  else if f = 127 then 1                              -- s8Uint
  else if f = 128 then 3                              -- d16UnormS8Uint (2 + 1)
  else if f = 129 then 4                              -- d24UnormS8Uint (3 + 1)
  else if f = 130 then 5                              -- d32SfloatS8Uint (4 + 1)
  else if f = 131 ∨ f = 132 ∨ f = 133 ∨ f = 134 then 8  -- bc1
  else if 135 ≤ f ∧ f ≤ 138 then 16                   -- bc2 / bc3
  else if f = 139 ∨ f = 140 then 8                    -- bc4
  else if 141 ≤ f ∧ f ≤ 146 then 16                   -- bc5 / bc6h / bc7
  else if 147 ≤ f ∧ f ≤ 150 then 8                    -- etc2 rgb / rgba1
  else if f = 151 ∨ f = 152 then 16                   -- etc2 rgba8
  else if f = 153 ∨ f = 154 then 8                    -- eac r11
  else if f = 155 ∨ f = 156 then 16                   -- eac r11g11
  else if 157 ≤ f ∧ f ≤ 184 then 16                   -- astc
  else 0

/-- sizeBytes from format.cpp: mip dimensions, each ceil-divided by the
format block extent, multiplied together and by the element size. -/
def sizeBytes (size : Vec3ui) (mip : Nat) (fmt : Nat) : Nat :=
  let w := max (size.x >>> mip) 1
  let h := max (size.y >>> mip) 1
  let d := max (size.z >>> mip) 1
  let b := blockSize fmt
  ceilDivide w b.x * ceilDivide h b.y * ceilDivide d b.z * formatElementSize fmt

/- In-memory image provider (MemImageProvider from the wrapImage translation
unit). Blobs are indexed mip * layers + layer; faceSize multiplies the raw
mip dimensions by the element size, without block rounding. -/

structure MemImageProvider where
  size : Vec3ui
  format : Nat
  mips : Nat
  layers : Nat
  cubemap : Bool
  blobs : List (List Nat)

/-- MemImageProvider::faceSize: w(m) * h(m) * d(m) * formatElementSize. -/
def MemImageProvider.faceSize (p : MemImageProvider) (mip : Nat) : Nat :=
  max (p.size.x >>> mip) 1 * max (p.size.y >>> mip) 1 * max (p.size.z >>> mip) 1
    * formatElementSize p.format

/-- MemImageProvider::read(mip, layer): the returned span starts at the
stored blob pointer and has length faceSize(mip). -/
def MemImageProvider.read (p : MemImageProvider) (mip layer : Nat) : List Nat :=
  ((p.blobs.getD (mip * p.layers + layer) []).take (p.faceSize mip))

/-- The provider used in the C4 counterexample: a wrapImage-style provider
holding one 4x4 bc1RgbUnormBlock face (bc1: 4x4 blocks of 8 bytes, so a
4x4 image is one block = 8 bytes; the blob mirrors the 128 bytes the
un-block-aware faceSize claims). -/
def c4Provider : MemImageProvider :=
  ⟨⟨4, 4, 1⟩, Format.bc1RgbUnormBlock, 1, 1, false, [List.replicate 128 0]⟩

/-- C1: tightTexelNumber((4,4,1), L=2, mip=1, layer=1, x=1, y=1, z=0) as
implemented returns 41, because the within-mip term is computed with the
level-0 extent (row stride 4) instead of the mip-1 dimensions; the
specification formula, which uses the mip-level dimensions, yields 39. -/
theorem C1_tightTexelNumber_within_mip_stride :
    tightTexelNumber ⟨4, 4, 1⟩ 2 1 1 1 1 0 0 = 41 ∧
    tightTexelNumberSpec ⟨4, 4, 1⟩ 2 1 1 1 1 0 0 = 39 := by
  decide

/-- C5 counterexample: bc1RgbSrgbBlock is an sRGB format, but toggleSRGB
maps it to itself, so isSRGB(toggleSRGB(f)) is true, not false as claimed. -/
theorem C5_counterexample_bc1Srgb :
    isSRGB Format.bc1RgbSrgbBlock = true ∧
    toggleSRGB Format.bc1RgbSrgbBlock = Format.bc1RgbSrgbBlock ∧
    isSRGB (toggleSRGB Format.bc1RgbSrgbBlock) = true := by
  decide

/-- C5 (amended): toggleSRGB is an involution on every format of the
enumeration; for an sRGB format in the paired set (the seven 8-bit pairs and
bc7SrgbBlock) the toggled format is not sRGB, while every other sRGB format
is mapped to itself and therefore stays sRGB. -/
theorem C5_toggleSRGB_involution_and_pairs :
    ∀ f ∈ allFormats,
      toggleSRGB (toggleSRGB f) = f ∧
      (isSRGB f = true →
        (f ∈ pairedSRGBFormats ∧ isSRGB (toggleSRGB f) = false) ∨
        (f ∉ pairedSRGBFormats ∧ toggleSRGB f = f)) := by
  decide

/-- C5 witness: instantiation of the amended theorem at r8g8b8a8Srgb. -/
theorem C5_witness :
    Format.r8g8b8a8Srgb ∈ allFormats ∧
    (toggleSRGB (toggleSRGB Format.r8g8b8a8Srgb) = Format.r8g8b8a8Srgb ∧
      (isSRGB Format.r8g8b8a8Srgb = true →
        (Format.r8g8b8a8Srgb ∈ pairedSRGBFormats ∧
          isSRGB (toggleSRGB Format.r8g8b8a8Srgb) = false) ∨
        (Format.r8g8b8a8Srgb ∉ pairedSRGBFormats ∧
          toggleSRGB Format.r8g8b8a8Srgb = Format.r8g8b8a8Srgb))) :=
  ⟨by decide, C5_toggleSRGB_involution_and_pairs Format.r8g8b8a8Srgb (by decide)⟩

/-- C4 counterexample: a wrapImage provider with the block-compressed format
bc1RgbUnormBlock and size (4,4,1) returns a span of 128 bytes from read(0,0)
(faceSize multiplies the raw dimensions by the 8-byte element size), while
sizeBytes ceil-divides by the 4x4 block extent and gives 8. -/
theorem C4_counterexample_bc1 :
    (c4Provider.read 0 0).length = 128 ∧
    sizeBytes c4Provider.size 0 c4Provider.format = 8 ∧
    (c4Provider.read 0 0).length ≠ sizeBytes c4Provider.size 0 c4Provider.format := by
  decide

/-- C4 (amended): for providers whose format has block extent {1,1,1}
(every non-block-compressed format), the span returned by read(mip, layer)
has length sizeBytes(size, mip, format), provided the backing blob covers
the face (the C++ span always has length faceSize; the blob-length
hypothesis makes the list model total). -/
theorem C4_read_length_eq_sizeBytes (p : MemImageProvider) (m l : Nat)
    (hb : blockSize p.format = ⟨1, 1, 1⟩)
    (hblob : p.faceSize m ≤ (p.blobs.getD (m * p.layers + l) []).length) :
    (p.read m l).length = sizeBytes p.size m p.format := by
  have hlen : (p.read m l).length = p.faceSize m := by
    simpa [MemImageProvider.read] using Nat.min_eq_left hblob
  rw [hlen]
  simp [MemImageProvider.faceSize, sizeBytes, hb, ceilDivide]

/-- C4 witness: the amended theorem applied to a 2x2 r8g8b8a8Unorm provider
with a 16-byte blob. -/
theorem C4_witness :
    blockSize (⟨⟨2, 2, 1⟩, Format.r8g8b8a8Unorm, 1, 1, false,
        [List.replicate 16 7]⟩ : MemImageProvider).format = ⟨1, 1, 1⟩ ∧
    ((⟨⟨2, 2, 1⟩, Format.r8g8b8a8Unorm, 1, 1, false,
        [List.replicate 16 7]⟩ : MemImageProvider).read 0 0).length =
      sizeBytes ⟨2, 2, 1⟩ 0 Format.r8g8b8a8Unorm :=
  ⟨by decide,
    C4_read_length_eq_sizeBytes
      ⟨⟨2, 2, 1⟩, Format.r8g8b8a8Unorm, 1, 1, false, [List.replicate 16 7]⟩
      0 0 (by decide) (by decide)⟩

/- Exact-arithmetic scalar: C++ doubles are modelled as unreduced fractions
num/den over Int/Nat. All operations are structural, so they evaluate inside
the kernel; Q.val maps a fraction to the Mathlib rationals for the
order-theoretic proofs. The double computations embedded below are exact for
the values involved (divisions by powers of two, small-integer products and
additions of 1/2 within the double significand). -/

structure Q where
  num : Int
  den : Nat
deriving DecidableEq, Repr

namespace Q

def ofInt (n : Int) : Q := ⟨n, 1⟩

def ofNat (n : Nat) : Q := ⟨(n : Int), 1⟩

def add (a b : Q) : Q := ⟨a.num * b.den + b.num * a.den, a.den * b.den⟩

def sub (a b : Q) : Q := ⟨a.num * b.den - b.num * a.den, a.den * b.den⟩

def mul (a b : Q) : Q := ⟨a.num * b.num, a.den * b.den⟩

def div (a b : Q) : Q :=
  if 0 ≤ b.num then ⟨a.num * b.den, a.den * b.num.toNat⟩
  else ⟨-(a.num * b.den), a.den * (-b.num).toNat⟩

def lt (a b : Q) : Prop := a.num * b.den < b.num * a.den

def le (a b : Q) : Prop := a.num * b.den ≤ b.num * a.den

instance (a b : Q) : Decidable (a.lt b) := Int.decLt _ _

instance (a b : Q) : Decidable (a.le b) := Int.decLe _ _

/-- std::max on doubles: (a < b) ? b : a. -/
def maxq (a b : Q) : Q := if a.lt b then b else a

/-- Mathematical floor of the fraction (Int division by a positive
denominator rounds toward negative infinity). -/
def floor (q : Q) : Int := q.num / (q.den : Int)

/-- C++ double-to-integer cast: truncation toward zero. -/
def trunc (q : Q) : Int := q.num.tdiv (q.den : Int)

/-- Exact power of two, the value of std::exp2 on an in-range int. -/
def pow2 (e : Int) : Q := if 0 ≤ e then ⟨2 ^ e.toNat, 1⟩ else ⟨1, 2 ^ (-e).toNat⟩

def floorNat (q : Q) : Nat := (q.num / (q.den : Int)).toNat

/-- Ceiling of the inverse of a positive fraction, as a natural number. -/
def ceilNatInv (q : Q) : Nat := (q.den + q.num.toNat - 1) / q.num.toNat

/-- Value of the fraction in the rationals. -/
def val (q : Q) : Rat := (q.num : Rat) / (q.den : Rat)

end Q

/- Shared-exponent e5b9g9r9 encode/decode (format.cpp). -/

/-- Structural floor-log2 on Nat: natLog2Aux fuel n with fuel >= n computes
the position of the highest set bit of n (0 for n <= 1). -/
def natLog2Aux : Nat → Nat → Nat
  | 0, _ => 0
  | fuel + 1, n => if n ≤ 1 then 0 else natLog2Aux fuel (n / 2) + 1

def natLog2 (n : Nat) : Nat := natLog2Aux n n

/-- Structural ceil-log2 on Nat: smallest c with n <= 2^c (0 for n <= 1). -/
def natClog2Aux : Nat → Nat → Nat
  | 0, _ => 0
  | fuel + 1, n => if n ≤ 1 then 0 else natClog2Aux fuel ((n + 1) / 2) + 1

def natClog2 (n : Nat) : Nat := natClog2Aux n n

/-- floorLog2 from format.cpp: extracts the biased float exponent field,
which is ⌊log2 x⌋ for normal positive floats and −127 for zero and
denormals (the source comments that the subsequent max with the minimum
rgb9e5 exponent hides the denormal and zero cases). -/
def floorLog2 (x : Q) : Int :=
  if x.num = 0 then -127
  else if (Q.ofNat 1).le x then (natLog2 x.floorNat : Int)
  else max (-(natClog2 x.ceilNatInv : Int)) (-127)

/-- clamp from the e5b9g9r9 namespace in format.cpp; the clamp maximum is
maxMantissa/mantissaValues * 2^(maxBiasedExp - expBias)
= (511/512) * 2^17 = 130816. -/
def e5Clamp (x : Q) : Q :=
  if (Q.ofNat 0).lt x then (if (Q.ofNat 130816).lt x then Q.ofNat 130816 else x)
  else Q.ofNat 0

/-- The clamp, shared-exponent, adjustment and mantissa computations of
e5b9g9r9FromRgb (format.cpp), which the claim restates verbatim: clamp each
channel, expShared = max(0, floorLog2(maxrgb) + 1 + 15),
denom = 2^(expShared - 15 - 9), increment expShared and double denom exactly
when floor(maxrgb/denom + 1/2) = 512, mantissas floor(c/denom + 1/2).
Returns (expShared, rm, gm, bm). -/
def e5Fields (r g b : Q) : Int × Int × Int × Int :=
  let rc := e5Clamp r
  let gc := e5Clamp g
  let bc := e5Clamp b
  let maxrgb := Q.maxq rc (Q.maxq gc bc)
  let expShared0 : Int := max 0 (floorLog2 maxrgb + 1 + 15)
  let denom0 : Q := Q.pow2 (expShared0 - 15 - 9)
  let maxm : Int := (Q.add (Q.div maxrgb denom0) ⟨1, 2⟩).floor
  let expShared : Int := if maxm = 512 then expShared0 + 1 else expShared0
  let denom : Q := if maxm = 512 then Q.mul denom0 (Q.ofNat 2) else denom0
  let rm : Int := (Q.add (Q.div rc denom) ⟨1, 2⟩).floor
  let gm : Int := (Q.add (Q.div gc denom) ⟨1, 2⟩).floor
  let bm : Int := (Q.add (Q.div bc denom) ⟨1, 2⟩).floor
  (expShared, rm, gm, bm)

/-- e5b9g9r9FromRgb from format.cpp. The final C++ expression
(expShared << 27) | (bm << 18) | (gm << 9) | rm is evaluated in a 32-bit
integer and returned as u32, so the packing is modelled modulo 2^32. -/
def e5b9g9r9FromRgb (r g b : Q) : Nat :=
  let f := e5Fields r g b
  ((f.1.toNat <<< 27) ||| (f.2.2.2.toNat <<< 18) ||| (f.2.2.1.toNat <<< 9)
    ||| f.2.1.toNat) % 2 ^ 32

/-- The encoder output as the claim describes it: the same field values,
with the result read as the number expShared * 2^27 + b * 2^18 + g * 2^9 + r
(exponent in bits [31:27], b in [26:18], g in [17:9], r in [8:0]). -/
def e5b9g9r9ClaimWord (r g b : Q) : Nat :=
  let f := e5Fields r g b
  f.1.toNat * 2 ^ 27 + f.2.2.2.toNat * 2 ^ 18 + f.2.2.1.toNat * 2 ^ 9 + f.2.1.toNat

/-- e5b9g9r9ToRgb from format.cpp: exponent bits [31:27], b [26:18],
g [17:9], r [8:0]; each channel is mantissa * 2^(exp - 15 - 9). -/
def e5b9g9r9ToRgb (ebgr : Nat) : Q × Q × Q :=
  let e : Int := ((ebgr >>> 27 : Nat) : Int) - 15 - 9
  let scale : Q := Q.pow2 e
  (Q.mul scale (Q.ofNat (ebgr &&& 511)),
   Q.mul scale (Q.ofNat ((ebgr >>> 9) &&& 511)),
   Q.mul scale (Q.ofNat ((ebgr >>> 18) &&& 511)))

/-- The decoder as the claim describes it, with the bit fields written as
division and remainder by powers of two. -/
def e5b9g9r9ToRgbClaim (ebgr : Nat) : Q × Q × Q :=
  let e : Int := ((ebgr / 2 ^ 27 : Nat) : Int) - 15 - 9
  let scale : Q := Q.pow2 e
  (Q.mul scale (Q.ofNat (ebgr % 2 ^ 9)),
   Q.mul scale (Q.ofNat (ebgr / 2 ^ 9 % 2 ^ 9)),
   Q.mul scale (Q.ofNat (ebgr / 2 ^ 18 % 2 ^ 9)))

/-- C7 counterexample: at rgb = (65536, 0, 0) — inside the claim's clamp
range [0, (511/512)*2^17] — the computed shared exponent is 32, which does
not fit the five exponent bits [31:27]: the 32-bit packing wraps and the
code returns the word 256 (exponent field 0, red mantissa 256), while the
packing described by the claim gives 2^32 + 256. -/
theorem C7_counterexample_overflow :
    (e5Fields (Q.ofNat 65536) (Q.ofNat 0) (Q.ofNat 0)).1 = 32 ∧
    e5b9g9r9FromRgb (Q.ofNat 65536) (Q.ofNat 0) (Q.ofNat 0) = 256 ∧
    e5b9g9r9ClaimWord (Q.ofNat 65536) (Q.ofNat 0) (Q.ofNat 0) = 4294967552 ∧
    e5b9g9r9FromRgb (Q.ofNat 65536) (Q.ofNat 0) (Q.ofNat 0) ≠
      e5b9g9r9ClaimWord (Q.ofNat 65536) (Q.ofNat 0) (Q.ofNat 0) := by
  decide

/- KTX1 container codec (ktx.cpp). Streams are byte lists; Write targets
are modelled by the list of bytes emitted so far, so a writer returns the
error code together with the bytes it has written when it stops. -/

inductive WriteErr
  | none
  | cantOpen
  | cantWrite
  | readError
  | unsupportedFormat
  | internal
deriving DecidableEq, Repr

inductive ReadErr
  | none
  | cantOpen
  | invalidType
  | internal
  | unexpectedEnd
  | invalidEndianess
  | unsupportedFormat
  | cantRepresent
  | empty
deriving DecidableEq, Repr

/-- Little-endian bytes of a u32. -/
def u32le (n : Nat) : List Nat :=
  [n % 256, n / 256 % 256, n / 65536 % 256, n / 16777216 % 256]

/-- Little-endian bytes of a u64. -/
def u64le (n : Nat) : List Nat :=
  u32le (n % 4294967296) ++ u32le (n / 4294967296)

/-- Combine little-endian bytes into a number. -/
def bytesToNatLE : List Nat → Nat
  | [] => 0
  | b :: rest => b + 256 * bytesToNatLE rest

/-- Read a little-endian u32 at a byte position of a stream. -/
def readU32 (bs : List Nat) (pos : Nat) : Nat :=
  bytesToNatLE ((bs.drop pos).take 4)

/-- Generic image provider for the writer models: header data plus the
read(mip, layer) face bytes. -/
structure ImgProvider where
  size : Vec3ui
  format : Nat
  mips : Nat
  layers : Nat
  cubemap : Bool
  faces : Nat → Nat → List Nat

/-- One row of the KTX1 format table (ktx.cpp formatMap):
glInternalFormat, glPixelFormat, glPixelType, vkFormat. The GL enumerant
values come from the Khronos GL registry; gl.hpp is not under src/. -/
structure FormatEntry where
  glFormat : Nat
  pixelFormat : Nat
  pixelType : Nat
  vkFormat : Nat
deriving DecidableEq, Repr

/-- formatMap from ktx.cpp, in source order. -/
def formatMap : List FormatEntry := [
  ⟨0x8229, 0x1903, 0x1401, 9⟩,    -- GL_R8, GL_RED, GL_UNSIGNED_BYTE, r8Unorm
  ⟨0x822B, 0x8227, 0x1401, 16⟩,   -- GL_RG8, GL_RG, GL_UNSIGNED_BYTE, r8g8Unorm
  ⟨0x8051, 0x1907, 0x1401, 23⟩,   -- GL_RGB8, GL_RGB, GL_UNSIGNED_BYTE, r8g8b8Unorm
  ⟨0x8058, 0x1908, 0x1401, 37⟩,   -- GL_RGBA8, GL_RGBA, GL_UNSIGNED_BYTE, r8g8b8a8Unorm
  ⟨0x8FBD, 0x1903, 0x1401, 15⟩,   -- GL_SR8, GL_RED, GL_UNSIGNED_BYTE, r8Srgb
  ⟨0x8C41, 0x1907, 0x1401, 29⟩,   -- GL_SRGB8, GL_RGB, GL_UNSIGNED_BYTE, r8g8b8Srgb
  ⟨0x8C43, 0x1908, 0x1401, 43⟩,   -- GL_SRGB8_ALPHA8, GL_RGBA, GL_UNSIGNED_BYTE, r8g8b8a8Srgb
  ⟨0x8F94, 0x1903, 0x1400, 10⟩,   -- GL_R8_SNORM, GL_RED, GL_BYTE, r8Snorm
  ⟨0x8F95, 0x1903, 0x1400, 17⟩,   -- GL_RG8_SNORM, GL_RED, GL_BYTE, r8g8Snorm
  ⟨0x8F96, 0x1903, 0x1400, 24⟩,   -- GL_RGB8_SNORM, GL_RED, GL_BYTE, r8g8b8Snorm
  ⟨0x8F97, 0x1903, 0x1400, 38⟩,   -- GL_RGBA8_SNORM, GL_RED, GL_BYTE, r8g8b8a8Snorm
  ⟨0x8231, 0x8D94, 0x1400, 14⟩,   -- GL_R8I, GL_RED_INTEGER, GL_BYTE, r8Sint
  ⟨0x8237, 0x8228, 0x1400, 21⟩,   -- GL_RG8I, GL_RG_INTEGER, GL_BYTE, r8g8Sint
  ⟨0x8D8F, 0x8D98, 0x1400, 28⟩,   -- GL_RGB8I, GL_RGB_INTEGER, GL_BYTE, r8g8b8Sint
  ⟨0x8D8E, 0x8D99, 0x1400, 42⟩,   -- GL_RGBA8I, GL_RGBA_INTEGER, GL_BYTE, r8g8b8a8Sint
  ⟨0x8232, 0x8D94, 0x1401, 13⟩,   -- GL_R8UI, GL_RED_INTEGER, GL_UNSIGNED_BYTE, r8Uint
  ⟨0x8238, 0x8228, 0x1401, 20⟩,   -- GL_RG8UI, GL_RG_INTEGER, GL_UNSIGNED_BYTE, r8g8Uint
  ⟨0x8D7D, 0x8D98, 0x1401, 27⟩,   -- GL_RGB8UI, GL_RGB_INTEGER, GL_UNSIGNED_BYTE, r8g8b8Uint
  ⟨0x8D7C, 0x8D99, 0x1401, 41⟩,   -- GL_RGBA8UI, GL_RGBA_INTEGER, GL_UNSIGNED_BYTE, r8g8b8a8Uint
  ⟨0x822A, 0x1903, 0x1403, 70⟩,   -- GL_R16, GL_RED, GL_UNSIGNED_SHORT, r16Unorm
  ⟨0x822C, 0x8227, 0x1403, 77⟩,   -- GL_RG16, GL_RG, GL_UNSIGNED_SHORT, r16g16Unorm
  ⟨0x8054, 0x1907, 0x1403, 84⟩,   -- GL_RGB16, GL_RGB, GL_UNSIGNED_SHORT, r16g16b16Unorm
  ⟨0x805B, 0x1908, 0x1403, 91⟩,   -- GL_RGBA16, GL_RGBA, GL_UNSIGNED_SHORT, r16g16b16a16Unorm
  ⟨0x822D, 0x1903, 0x140B, 76⟩,   -- GL_R16F, GL_RED, GL_HALF_FLOAT, r16Sfloat
  ⟨0x822F, 0x8227, 0x140B, 83⟩,   -- GL_RG16F, GL_RG, GL_HALF_FLOAT, r16g16Sfloat
  ⟨0x881B, 0x1907, 0x140B, 90⟩,   -- GL_RGB16F, GL_RGB, GL_HALF_FLOAT, r16g16b16Sfloat
  ⟨0x881A, 0x1908, 0x140B, 97⟩,   -- GL_RGBA16F, GL_RGBA, GL_HALF_FLOAT, r16g16b16a16Sfloat
  ⟨0x8F98, 0x1903, 0x1402, 71⟩,   -- GL_R16_SNORM, GL_RED, GL_SHORT, r16Snorm
  ⟨0x8F99, 0x8227, 0x1402, 78⟩,   -- GL_RG16_SNORM, GL_RG, GL_SHORT, r16g16Snorm
  ⟨0x8F9A, 0x1908, 0x1402, 85⟩,   -- GL_RGB16_SNORM, GL_RGBA, GL_SHORT, r16g16b16Snorm
  ⟨0x8233, 0x8D94, 0x1402, 75⟩,   -- GL_R16I, GL_RED_INTEGER, GL_SHORT, r16Sint
  ⟨0x8239, 0x8228, 0x1402, 82⟩,   -- GL_RG16I, GL_RG_INTEGER, GL_SHORT, r16g16Sint
  ⟨0x8D89, 0x8D98, 0x1402, 89⟩,   -- GL_RGB16I, GL_RGB_INTEGER, GL_SHORT, r16g16b16Sint
  ⟨0x8D88, 0x8D99, 0x1402, 96⟩,   -- GL_RGBA16I, GL_RGBA_INTEGER, GL_SHORT, r16g16b16a16Sint
  ⟨0x8234, 0x8D94, 0x1403, 74⟩,   -- GL_R16UI, GL_RED_INTEGER, GL_UNSIGNED_SHORT, r16Uint
  ⟨0x823A, 0x8228, 0x1403, 81⟩,   -- GL_RG16UI, GL_RG_INTEGER, GL_UNSIGNED_SHORT, r16g16Uint
  ⟨0x8D77, 0x8D98, 0x1403, 88⟩,   -- GL_RGB16UI, GL_RGB_INTEGER, GL_UNSIGNED_SHORT, r16g16b16Uint
  ⟨0x8D76, 0x8D99, 0x1403, 95⟩,   -- GL_RGBA16UI, GL_RGBA_INTEGER, GL_UNSIGNED_SHORT, r16g16b16a16Uint
  ⟨0x822E, 0x1903, 0x1406, 100⟩,  -- GL_R32F, GL_RED, GL_FLOAT, r32Sfloat
  ⟨0x8230, 0x8227, 0x1406, 103⟩,  -- GL_RG32F, GL_RG, GL_FLOAT, r32g32Sfloat
  ⟨0x8814, 0x1908, 0x1406, 109⟩,  -- GL_RGBA32F, GL_RGBA, GL_FLOAT, r32g32b32a32Sfloat
  ⟨0x8235, 0x8D94, 0x1404, 99⟩,   -- GL_R32I, GL_RED_INTEGER, GL_INT, r32Sint
  ⟨0x823B, 0x8228, 0x1404, 102⟩,  -- GL_RG32I, GL_RG_INTEGER, GL_INT, r32g32Sint
  ⟨0x8D83, 0x8D98, 0x1404, 105⟩,  -- GL_RGB32I, GL_RGB_INTEGER, GL_INT, r32g32b32Sint
  ⟨0x8D82, 0x8D99, 0x1404, 108⟩,  -- GL_RGBA32I, GL_RGBA_INTEGER, GL_INT, r32g32b32a32Sint
  ⟨0x8236, 0x8D94, 0x1405, 98⟩,   -- GL_R32UI, GL_RED_INTEGER, GL_UNSIGNED_INT, r32Uint
  ⟨0x823C, 0x8228, 0x1405, 101⟩,  -- GL_RG32UI, GL_RG_INTEGER, GL_UNSIGNED_INT, r32g32Uint
  ⟨0x8D71, 0x8D98, 0x1405, 104⟩,  -- GL_RGB32UI, GL_RGB_INTEGER, GL_UNSIGNED_INT, r32g32b32Uint
  ⟨0x8D70, 0x8D99, 0x1405, 107⟩,  -- GL_RGBA32UI, GL_RGBA_INTEGER, GL_UNSIGNED_INT, r32g32b32a32Uint
  ⟨0x8C3D, 0x1907, 0x8C3E, 123⟩,  -- GL_RGB9_E5, GL_RGB, GL_UNSIGNED_INT_5_9_9_9_REV, e5b9g9r9
  ⟨0x8E8C, 0x1908, 0, 145⟩,       -- GL_COMPRESSED_RGBA_BPTC_UNORM, bc7UnormBlock
  ⟨0x8E8D, 0x1908, 0, 146⟩]       -- GL_COMPRESSED_SRGB_ALPHA_BPTC_UNORM, bc7SrgbBlock

/-- vulkanFromGLFormat from ktx.cpp: first entry with the given
glInternalFormat, Format::undefined (0) when absent. -/
def vulkanFromGLFormat (gl : Nat) : Nat :=
  ((formatMap.find? (fun e => e.glFormat == gl)).map (fun e => e.vkFormat)).getD 0

/-- The entry the KTX1 writer selects: first entry with the given vkFormat. -/
def ktxEntryFor (vk : Nat) : Option FormatEntry :=
  formatMap.find? (fun e => e.vkFormat == vk)

def ktxIdentifier : List Nat :=
  [0xAB, 0x4B, 0x54, 0x58, 0x20, 0x31, 0x31, 0xBB, 0x0D, 0x0A, 0x1A, 0x0A]

/-- The (layer, face) iteration order of the KTX1/KTX2 writers:
outer loop layers, inner loop faces. -/
def lfPairs (layers faces : Nat) : List (Nat × Nat) :=
  (List.range layers).foldr
    (fun l acc => (List.range faces).map (fun f => (l, f)) ++ acc) []

/-- Face loop of writeKtxThrow for one mip: each face span must have exactly
faceSize bytes (else WriteError::readError, modelled as Except.error with
the bytes written so far); after each face the offset is padded to 4. -/
def ktxWriteFaces (img : ImgProvider) (m faces faceSize : Nat) :
    List (Nat × Nat) → List Nat → Nat → Except (List Nat) (List Nat × Nat)
  | [], out, off => .ok (out, off)
  | (l, f) :: rest, out, off =>
    let s := img.faces m (l * faces + f)
    if s.length = faceSize then
      let out2 := out ++ s
      let off2 := off + s.length
      let pad := align off2 4 - off2
      ktxWriteFaces img m faces faceSize rest (out2 ++ List.replicate pad 0) (off2 + pad)
    else .error out

/-- Mip loop of writeKtxThrow: writes the u32 imageSize (with the KTX
cubemap special case), the faces, and pads the mip block to 4 bytes. -/
def ktxWriteMips (img : ImgProvider) (faces layers fmtSize arrayElems : Nat) :
    List Nat → List Nat → Nat → Except (List Nat) (List Nat × Nat)
  | [], out, off => .ok (out, off)
  | m :: rest, out, off =>
    let msize := mipSize img.size m
    let faceSize := msize.x * msize.y * msize.z * fmtSize
    let metaSize := if arrayElems = 0 ∧ img.cubemap then faceSize
      else align faceSize 4 * layers * faces
    let out2 := out ++ u32le metaSize
    let off2 := off + 4
    match ktxWriteFaces img m faces faceSize (lfPairs layers faces) out2 off2 with
    | .error o => .error o
    | .ok (out3, off3) =>
      let pad := align off3 4 - off3
      ktxWriteMips img faces layers fmtSize arrayElems rest
        (out3 ++ List.replicate pad 0) (off3 + pad)

/-- writeKtxThrow from ktx.cpp: emits the 12-byte magic, then looks the
format up in formatMap — returning WriteError::unsupportedFormat with only
the magic written when it is absent — then the 13-field header and the mip
data. -/
def writeKtx (img : ImgProvider) : WriteErr × List Nat :=
  let size := img.size
  let mips := max img.mips 1
  let layersAll := max img.layers 1
  let fmtSize := formatElementSize img.format
  let faces := if img.cubemap then 6 else 1
  let layers := if img.cubemap then layersAll / 6 else layersAll
  match ktxEntryFor img.format with
  | Option.none => (WriteErr.unsupportedFormat, ktxIdentifier)
  | Option.some entry =>
    let arrayElems := if layers > 1 then layers else 0
    let glFormatField := if entry.pixelType = 0 then 0 else entry.pixelFormat
    let headerWords : List Nat :=
      [0x04030201, entry.pixelType, fmtSize, glFormatField, entry.glFormat,
       entry.pixelFormat, size.x, if size.y > 1 then size.y else 0,
       if size.z > 1 then size.z else 0, arrayElems, faces, mips, 0]
    let out := ktxIdentifier ++ headerWords.foldr (fun w acc => u32le w ++ acc) []
    match ktxWriteMips img faces layers fmtSize arrayElems (List.range mips) out 64 with
    | .error o => (WriteErr.readError, o)
    | .ok (o, _) => (WriteErr.none, o)

/-- The state loadKtx leaves behind: header fields plus the owned stream. -/
structure KtxR where
  format : Nat
  size : Vec3ui
  mipLevels : Nat
  faces : Nat
  arrayElements : Nat
  dataBegin : Nat
  data : List Nat
deriving DecidableEq, Repr

/-- KtxReader::layers(): max(faces * max(arrayElements, 1), 1). -/
def KtxR.layers (r : KtxR) : Nat :=
  max (r.faces * max r.arrayElements 1) 1

/-- KtxReader::faceSize: sizeBytes of the mip. -/
def KtxR.faceSize (r : KtxR) (mip : Nat) : Nat :=
  sizeBytes r.size mip r.format

/-- KtxReader::offset (release path): skips, per preceding mip, the u32
imageSize field plus the 4-aligned mip block, then the u32 of the requested
mip and the preceding 4-aligned faces. -/
def KtxR.offset (r : KtxR) (mip layer : Nat) : Nat :=
  let base := (List.range mip).foldl
    (fun acc i => acc + 4 + align (r.layers * align (r.faceSize i) 4) 4)
    r.dataBegin
  base + 4 + layer * align (r.faceSize mip) 4

/-- KtxReader::read(mip, layer): seeks to offset and reads faceSize bytes;
Read::read throws std::out_of_range when the stream is too short, modelled
as Option.none. -/
def KtxR.read (r : KtxR) (mip layer : Nat) : Option (List Nat) :=
  let n := r.faceSize mip
  let a := r.offset mip layer
  if a + n ≤ r.data.length then some ((r.data.drop a).take n) else Option.none

/-- loadKtx from ktx.cpp: magic, header and key/value section are validated;
the image payload is never touched (the debug key/value walk is compiled out
in release). Returns the reader state holding the stream. -/
def loadKtx (bs : List Nat) : Except ReadErr KtxR :=
  if bs.length < 12 then .error .unexpectedEnd
  else if bs.take 12 ≠ ktxIdentifier then .error .invalidType
  else if bs.length < 64 then .error .unexpectedEnd
  else
    let endianness := readU32 bs 12
    let glInternalFormat := readU32 bs 28
    let pixelWidth := readU32 bs 36
    let pixelHeight := readU32 bs 40
    let pixelDepth := readU32 bs 44
    let numberArrayElements := readU32 bs 48
    let numberFaces := readU32 bs 52
    let numberMipmapLevels := readU32 bs 56
    let bytesKeyValueData := readU32 bs 60
    if endianness ≠ 0x04030201 then .error .invalidEndianess
    else if pixelDepth > 1 ∧ (numberFaces > 1 ∨ numberArrayElements > 1) then
      .error .cantRepresent
    else if pixelWidth = 0 then .error .empty
    else if vulkanFromGLFormat glInternalFormat = 0 then .error .unsupportedFormat
    else .ok ⟨vulkanFromGLFormat glInternalFormat,
      ⟨pixelWidth, max pixelHeight 1, max pixelDepth 1⟩,
      max numberMipmapLevels 1, max numberFaces 1, numberArrayElements,
      64 + bytesKeyValueData, bs⟩

/-- The C6 provider: 1x1 r8g8b8a8Unorm, one mip, one layer,
payload 11 22 33 44. -/
def c6Provider : ImgProvider :=
  ⟨⟨1, 1, 1⟩, Format.r8g8b8a8Unorm, 1, 1, false, fun _ _ => [0x11, 0x22, 0x33, 0x44]⟩

/-- C6: writing the 1x1 RGBA8 provider through writeKtx produces exactly
72 bytes (12 magic + 52 header + 4 imageSize + 4 face + 0 padding), and
loading the produced bytes gives back a provider whose read(0,0) returns the
original payload. -/
theorem C6_ktx1_rgba8_roundtrip :
    (writeKtx c6Provider).1 = WriteErr.none ∧
    (writeKtx c6Provider).2.length = 72 ∧
    (loadKtx (writeKtx c6Provider).2).map
      (fun r => (r.format, r.size, r.mipLevels, r.layers, r.read 0 0)) =
      Except.ok (Format.r8g8b8a8Unorm, ⟨1, 1, 1⟩, 1, 1,
        some [0x11, 0x22, 0x33, 0x44]) := by
  decide

/-- C9: writeKtx writes the 12-byte magic before consulting the format
table, so on an unsupported format it returns WriteError::unsupportedFormat
with the magic — and nothing else — already written to the stream. -/
theorem C9_writeKtx_magic_before_format_check (p : ImgProvider)
    (h : ktxEntryFor p.format = Option.none) :
    writeKtx p = (WriteErr.unsupportedFormat, ktxIdentifier) := by
  simp [writeKtx, h]

/-- C9 witness: r4g4UnormPack8 has no KTX1 table entry. -/
theorem C9_witness :
    ktxEntryFor (1 : Nat) = Option.none ∧
    writeKtx ⟨⟨1, 1, 1⟩, 1, 1, 1, false, fun _ _ => []⟩ =
      (WriteErr.unsupportedFormat, ktxIdentifier) :=
  ⟨by decide,
    C9_writeKtx_magic_before_format_check
      ⟨⟨1, 1, 1⟩, 1, 1, 1, false, fun _ _ => []⟩ (by decide)⟩

/-- A well-formed 64-byte KTX1 stream (magic + header for a 1x1
r8g8b8a8Unorm image with one mip and one layer) with the whole 8-byte
payload (u32 imageSize + face) truncated away. -/
def c10HeaderBytes : List Nat :=
  ktxIdentifier ++ u32le 0x04030201 ++ u32le 0x1401 ++ u32le 4 ++ u32le 0x1908
    ++ u32le 0x8058 ++ u32le 0x1908 ++ u32le 1 ++ u32le 1 ++ u32le 1
    ++ u32le 0 ++ u32le 1 ++ u32le 1 ++ u32le 0

/-- C10: loadKtx on the truncated stream succeeds (it validates only magic,
header and key/value data and never inspects the payload), handing out a
reader with the parsed metadata; the truncation surfaces only when
read(0, 0) is called, which ends in the throwing Read::read on a short
read — modelled by Option.none — instead of returning a ReadError. -/
theorem C10_loadKtx_truncated_payload :
    (loadKtx c10HeaderBytes).map (fun r => r.format) = Except.ok Format.r8g8b8a8Unorm ∧
    (loadKtx c10HeaderBytes).map (fun r => r.size) = Except.ok ⟨1, 1, 1⟩ ∧
    (loadKtx c10HeaderBytes).map (fun r => r.mipLevels) = Except.ok 1 ∧
    (loadKtx c10HeaderBytes).map (fun r => r.layers) = Except.ok 1 ∧
    (loadKtx c10HeaderBytes).map (fun r => r.dataBegin) = Except.ok 64 ∧
    (loadKtx c10HeaderBytes).map (fun r => r.read 0 0) = Except.ok Option.none := by
  decide

/- KTX2 container codec (second half of ktx.cpp). Only the non-zlib path is
modelled (the claim under test concerns writing without supercompression). -/

def ktx2Identifier : List Nat :=
  [0xAB, 0x4B, 0x54, 0x58, 0x20, 0x32, 0x30, 0xBB, 0x0D, 0x0A, 0x1A, 0x0A]

/-- Read a little-endian u64 at a byte position of a stream. -/
def readU64 (bs : List Nat) (pos : Nat) : Nat :=
  bytesToNatLE ((bs.drop pos).take 8)

/-- Modelled from the spec: FormatIsCompressed (format_utils.h, not under
src/) — exactly the block-compressed formats, i.e. those with a non-unit
texel block extent. -/
def formatIsCompressed (f : Nat) : Bool :=
  blockSize f ≠ ⟨1, 1, 1⟩

/-- Modelled from the spec: FormatIsPacked (format_utils.h, not under src/)
— the Vulkan formats whose names carry PACK. -/
def formatIsPacked (f : Nat) : Bool :=
  (1 ≤ f ∧ f ≤ 8) ∨ (51 ≤ f ∧ f ≤ 69) ∨ f = 122 ∨ f = 123 ∨ f = 125
    ∨ (1000156007 ≤ f ∧ f ≤ 1000156026) ∨ f = 1000340000 ∨ f = 1000340001

/-- Modelled from the spec: FormatComponentCount (format_utils.h, not under
src/), for the unpacked color and depth/stencil formats. -/
def formatComponentCount (f : Nat) : Nat :=
  if 9 ≤ f ∧ f ≤ 15 then 1
  else if 16 ≤ f ∧ f ≤ 22 then 2
  else if 23 ≤ f ∧ f ≤ 36 then 3
  else if 37 ≤ f ∧ f ≤ 50 then 4
  else if 70 ≤ f ∧ f ≤ 76 then 1
  else if 77 ≤ f ∧ f ≤ 83 then 2
  else if 84 ≤ f ∧ f ≤ 90 then 3
  else if 91 ≤ f ∧ f ≤ 97 then 4
  else if 98 ≤ f ∧ f ≤ 100 then 1
  else if 101 ≤ f ∧ f ≤ 103 then 2
  else if 104 ≤ f ∧ f ≤ 106 then 3
  else if 107 ≤ f ∧ f ≤ 109 then 4
  else if 110 ≤ f ∧ f ≤ 112 then 1
  else if 113 ≤ f ∧ f ≤ 115 then 2
  else if 116 ≤ f ∧ f ≤ 118 then 3
  else if 119 ≤ f ∧ f ≤ 121 then 4
  else if f = 124 ∨ f = 126 ∨ f = 127 then 1
  else if f = 128 ∨ f = 129 ∨ f = 130 then 2
  else 1

/-- typeSize from ktx.cpp: 1 for compressed or undefined, the element size
for packed formats, element size divided by component count otherwise. -/
def ktx2TypeSize (f : Nat) : Nat :=
  if formatIsCompressed f || f == 0 then 1
  else if formatIsPacked f then formatElementSize f
  else formatElementSize f / formatComponentCount f

/-- First pass of writeKtx2Throw: the level index. Offsets are the running
sum of the level lengths from dataStart — without the alignment padding the
data pass later inserts. Returns the index bytes. -/
def ktx2LevelIndex (size : Vec3ui) (fmt numLayers numFaces : Nat) :
    List Nat → Nat → List Nat
  | [], _ => []
  | m :: rest, off =>
    let len := sizeBytes size m fmt * numLayers * numFaces
    u64le off ++ u64le len ++ u64le len
      ++ ktx2LevelIndex size fmt numLayers numFaces rest (off + len)

/-- Face loop of the non-zlib data pass of writeKtx2Throw. -/
def ktx2WriteFaces (img : ImgProvider) (m numFaces faceSize : Nat) :
    List (Nat × Nat) → List Nat → Except (List Nat) (List Nat)
  | [], out => .ok out
  | (l, f) :: rest, out =>
    let s := img.faces m (l * numFaces + f)
    if s.length = faceSize then
      ktx2WriteFaces img m numFaces faceSize rest (out ++ s)
    else .error out

/-- Mip loop of the non-zlib data pass of writeKtx2Throw: pads the running
offset to align(elementSize, 4) before each level, then writes the faces. -/
def ktx2WriteMips (img : ImgProvider) (fmt fmtSize numFaces numLayers : Nat) :
    List Nat → List Nat → Nat → Except (List Nat) (List Nat × Nat)
  | [], out, off => .ok (out, off)
  | m :: rest, out, off =>
    let faceSize := sizeBytes img.size m fmt
    let alignment := align fmtSize 4
    let pad := align off alignment - off
    let out2 := out ++ List.replicate pad 0
    let off2 := off + pad
    match ktx2WriteFaces img m numFaces faceSize (lfPairs numLayers numFaces) out2 with
    | .error o => .error o
    | .ok out3 =>
      ktx2WriteMips img fmt fmtSize numFaces numLayers rest out3
        (off2 + faceSize * numLayers * numFaces)

/-- writeKtx2Throw from ktx.cpp without zlib supercompression: magic, the
15-field header, the level index computed without inter-level padding, then
the level data with alignment padding inserted before each level. In the
non-zlib path the level index is never back-patched. -/
def writeKtx2 (img : ImgProvider) : WriteErr × List Nat :=
  let size := img.size
  let numMips := img.mips
  let numLayersAll := img.layers
  let fmtSize := formatElementSize img.format
  let numFaces := if img.cubemap then 6 else 1
  let numLayers := if img.cubemap then numLayersAll / 6 else numLayersAll
  let headerWords : List Nat :=
    [img.format, ktx2TypeSize img.format, size.x,
     if size.y > 1 then size.y else 0, if size.z > 1 then size.z else 0,
     if numLayers > 1 then numLayers else 0, numFaces, numMips, 0,
     0, 0, 0, 0, 0, 0]
  let dataStart := 72 + 24 * numMips
  let idx := ktx2LevelIndex size img.format numLayers numFaces (List.range numMips) dataStart
  let out := ktx2Identifier ++ headerWords.foldr (fun w acc => u32le w ++ acc) [] ++ idx
  match ktx2WriteMips img img.format fmtSize numFaces numLayers (List.range numMips) out dataStart with
  | .error o => (WriteErr.readError, o)
  | .ok (o, _) => (WriteErr.none, o)

/-- The state loadKtx2 leaves behind (non-zlib): header fields, the level
index (offset, length, uncompressedLength), and the owned stream. The
initial stream offset is 0. -/
structure Ktx2R where
  format : Nat
  size : Vec3ui
  faces : Nat
  layerCount : Nat
  levels : List (Nat × Nat × Nat)
  zlib : Bool
  data : List Nat
deriving DecidableEq, Repr

def Ktx2R.layers (r : Ktx2R) : Nat :=
  max (r.faces * max r.layerCount 1) 1

def Ktx2R.mipLevels (r : Ktx2R) : Nat := r.levels.length

def Ktx2R.faceSize (r : Ktx2R) (mip : Nat) : Nat :=
  sizeBytes r.size mip r.format

/-- Ktx2Reader::offset: initialOffset (0) + levels[mip].offset
+ faceSize(mip) * layer. -/
def Ktx2R.offset (r : Ktx2R) (mip layer : Nat) : Nat :=
  (r.levels.getD mip (0, 0, 0)).1 + r.faceSize mip * layer

/-- Ktx2Reader::read (non-zlib): seeks to offset and reads faceSize bytes;
a short stream makes the throwing Read::read fail, modelled as none. -/
def Ktx2R.read (r : Ktx2R) (mip layer : Nat) : Option (List Nat) :=
  let n := r.faceSize mip
  let a := r.offset mip layer
  if a + n ≤ r.data.length then some ((r.data.drop a).take n) else Option.none

/-- loadKtx2 from ktx.cpp: validates magic and header, reads the level
index, and keeps the stream; level data is not inspected. -/
def loadKtx2 (bs : List Nat) : Except ReadErr Ktx2R :=
  if bs.length < 12 then .error .unexpectedEnd
  else if bs.take 12 ≠ ktx2Identifier then .error .invalidType
  else if bs.length < 72 then .error .unexpectedEnd
  else
    let vkFormat := readU32 bs 12
    let pixelWidth := readU32 bs 20
    let pixelHeight := readU32 bs 24
    let pixelDepth := readU32 bs 28
    let layerCount := readU32 bs 32
    let faceCount := readU32 bs 36
    let levelCount := readU32 bs 40
    let supercompression := readU32 bs 44
    if vkFormat = 0 then .error .unsupportedFormat
    else if pixelWidth = 0 then .error .empty
    else if supercompression ≠ 3 ∧ supercompression ≠ 0 then .error .unsupportedFormat
    else if bs.length < 72 + 24 * levelCount then .error .unexpectedEnd
    else
      let levels := (List.range levelCount).map
        (fun i => (readU64 bs (72 + 24 * i), readU64 bs (72 + 24 * i + 8),
          readU64 bs (72 + 24 * i + 16)))
      .ok ⟨vkFormat, ⟨pixelWidth, max pixelHeight 1, max pixelDepth 1⟩,
        if faceCount = 0 then 1 else faceCount, layerCount, levels,
        supercompression = 3, bs⟩

/-- The C3 provider: size (2,1,1), r8g8b8Unorm (element size 3 bytes, so
the per-mip level sizes 6 and 3 are not multiples of 4), two mips, one
layer. -/
def c3Provider : ImgProvider :=
  ⟨⟨2, 1, 1⟩, Format.r8g8b8Unorm, 2, 1, false,
    fun m _ => if m = 0 then [1, 2, 3, 4, 5, 6] else [0xAA, 0xBB, 0xCC]⟩

/-- C3: the KTX2 writer records level offsets without the alignment padding
it later inserts between levels, and the non-zlib path never back-patches
the index. For the r8g8b8Unorm 2x1 two-mip image the metadata round-trips
(format, size, mips, layers), and mip 0 round-trips byte-for-byte, but the
mip-1 level entry points at offset 126 while the mip-1 bytes were written at
128 after two padding bytes: reloading read(1,0) returns [0, 0, AA] instead
of the original [AA, BB, CC]. -/
theorem C3_ktx2_padding_desyncs_level_index :
    (writeKtx2 c3Provider).1 = WriteErr.none ∧
    (loadKtx2 (writeKtx2 c3Provider).2).map (fun r => r.format) =
      Except.ok Format.r8g8b8Unorm ∧
    (loadKtx2 (writeKtx2 c3Provider).2).map (fun r => r.size) = Except.ok ⟨2, 1, 1⟩ ∧
    (loadKtx2 (writeKtx2 c3Provider).2).map (fun r => r.mipLevels) = Except.ok 2 ∧
    (loadKtx2 (writeKtx2 c3Provider).2).map (fun r => r.layers) = Except.ok 1 ∧
    (loadKtx2 (writeKtx2 c3Provider).2).map (fun r => (r.levels.getD 1 (0, 0, 0)).1) =
      Except.ok 126 ∧
    (loadKtx2 (writeKtx2 c3Provider).2).map (fun r => r.read 0 0) =
      Except.ok (some [1, 2, 3, 4, 5, 6]) ∧
    (loadKtx2 (writeKtx2 c3Provider).2).map (fun r => r.read 1 0) =
      Except.ok (some [0, 0, 0xAA]) ∧
    c3Provider.faces 1 0 = [0xAA, 0xBB, 0xCC] ∧
    [0, 0, 0xAA] ≠ [0xAA, 0xBB, 0xCC] := by
  decide

/- PNG writer front-end (png.cpp). The libpng calls themselves are an
external codec; the format dispatch, the IHDR parameters handed to
png_set_IHDR, and the provider-size check are the repository's own logic
and are modelled here. -/

/-- libpng color-type constants (png.h, external library). -/
def PNG_COLOR_TYPE_GRAY : Nat := 0
def PNG_COLOR_TYPE_RGB : Nat := 2
def PNG_COLOR_TYPE_RGB_ALPHA : Nat := 6

/-- The format dispatch of writePngThrow: (colorType, bitDepth, comps).
The 16-bit three- and four-channel branches set PNG_COLOR_TYPE_GRAY in the
source. -/
def pngColorInfo (fmt : Nat) : Option (Nat × Nat × Nat) :=
  if fmt = Format.r8Unorm ∨ fmt = Format.r8Srgb then
    some (PNG_COLOR_TYPE_GRAY, 8, 1)
  else if fmt = Format.r8g8b8Unorm ∨ fmt = Format.r8g8b8Srgb then
    some (PNG_COLOR_TYPE_RGB, 8, 3)
  else if fmt = Format.r8g8b8a8Unorm ∨ fmt = Format.r8g8b8a8Srgb then
    some (PNG_COLOR_TYPE_RGB_ALPHA, 8, 4)
  else if fmt = Format.r16Unorm then
    some (PNG_COLOR_TYPE_GRAY, 16, 1)
  else if fmt = Format.r16g16b16Unorm then
    some (PNG_COLOR_TYPE_GRAY, 16, 3)
  else if fmt = Format.r16g16b16a16Unorm then
    some (PNG_COLOR_TYPE_GRAY, 16, 4)
  else Option.none

/-- writePngThrow from png.cpp, pure part: unsupported formats error before
anything is written; otherwise the IHDR (width, height, bitDepth,
colorType) is written, and then the face byte count is checked against
width * height * comps — without the factor 2 for 16-bit components — and
WriteError::readError is returned on mismatch. Returns the error and the
IHDR written, if any. -/
def writePng (img : ImgProvider) : WriteErr × Option (Nat × Nat × Nat × Nat) :=
  match pngColorInfo img.format with
  | Option.none => (WriteErr.unsupportedFormat, Option.none)
  | Option.some (t, bd, comps) =>
    let ihdr := (img.size.x, img.size.y, bd, t)
    let data := img.faces 0 0
    if data.length ≠ img.size.x * img.size.y * comps then (WriteErr.readError, some ihdr)
    else (WriteErr.none, some ihdr)

/-- A 2x2 r16g16b16Unorm provider with the correct 24-byte face
(2*2 texels of 6 bytes). -/
def c8Provider3 : ImgProvider :=
  ⟨⟨2, 2, 1⟩, Format.r16g16b16Unorm, 1, 1, false, fun _ _ => List.replicate 24 0⟩

/-- A 2x2 r16g16b16a16Unorm provider with the correct 32-byte face. -/
def c8Provider4 : ImgProvider :=
  ⟨⟨2, 2, 1⟩, Format.r16g16b16a16Unorm, 1, 1, false, fun _ _ => List.replicate 32 0⟩

/-- C8: for r16g16b16Unorm and r16g16b16a16Unorm providers with
correct-length faces, writePng writes an IHDR with color type
PNG_COLOR_TYPE_GRAY (0) — not PNG_COLOR_TYPE_RGB (2) resp.
PNG_COLOR_TYPE_RGB_ALPHA (6) as the claim states — and then fails with
WriteError::readError because the byte-size check omits the factor 2 for
16-bit components. -/
theorem C8_writePng_16bit_rgb_gray_bug :
    writePng c8Provider3 = (WriteErr.readError, some (2, 2, 16, PNG_COLOR_TYPE_GRAY)) ∧
    writePng c8Provider4 = (WriteErr.readError, some (2, 2, 16, PNG_COLOR_TYPE_GRAY)) ∧
    PNG_COLOR_TYPE_GRAY ≠ PNG_COLOR_TYPE_RGB ∧
    PNG_COLOR_TYPE_GRAY ≠ PNG_COLOR_TYPE_RGB_ALPHA := by
  decide

/- Per-texel format engine (format.cpp FormatReader / FormatWriter /
ioFormat / formatSwizzle / read / write). Components with an integer
on-disk encoding are modelled exactly; the float-component formats
(Sfloat halves/floats/doubles) are not modelled, since byte-exact
statements about them hinge on IEEE-754 payload details (signalling NaN
quieting, signed zero) outside this integer embedding, and the 64-bit
integer formats are not modelled because their values exceed the exact
range of a C++ double (the source itself notes the precision problem). -/

/-- Format engine descriptor: the template parameters that ioFormat
dispatches on (iofmt for unpacked formats, iopack for packed bitfields,
and the three bespoke depth/stencil cases). -/
inductive FmtIo
  | unpacked (n bytes fac : Nat) (signed : Bool)
  | packed (bits : List Nat) (norm signed : Bool)
  | dsD16S8
  | dsD24S8
  | dsX8D24
deriving DecidableEq, Repr

/-- Swizzle pattern of formatSwizzle (format.cpp): identity, bgra
(2,1,0,3), abgr (3,2,1,0) or argb (1,2,3,0). -/
inductive SwizKind
  | idn
  | bgra
  | abgr
  | argb
deriving DecidableEq, Repr

/-- formatSwizzle from format.cpp. The listed formats only; in particular
the SNORM b8g8r8/b8g8r8a8 formats are absent from the source's list and
therefore identity. -/
def formatSwizzle (f : Nat) : SwizKind :=
  if f = 44 ∨ f = 50 ∨ f = 49 ∨ f = 48 ∨ f = 47 ∨ f = 46
    ∨ f = 30 ∨ f = 36 ∨ f = 35 ∨ f = 34 ∨ f = 33 ∨ f = 32
    ∨ f = 7 ∨ f = 5 ∨ f = 3 then SwizKind.bgra
  else if (51 ≤ f ∧ f ≤ 57) ∨ (64 ≤ f ∧ f ≤ 69) then SwizKind.abgr
  else if 58 ≤ f ∧ f ≤ 63 then SwizKind.argb
  else SwizKind.idn

/-- The ioFormat dispatch (format.cpp) for the integer-component formats:
component count, component byte width, normalization divisor and
signedness for iofmt; bit widths and UNORM/SNORM-style flags for iopack
(norm = UNORM or SNORM or SRGB, signed = SNORM or SINT or SSCALED);
the three depth/stencil special cases. sRGB, float-component, 64-bit,
b10g11r11 and e5b9g9r9 formats are not covered. -/
def formatIo (f : Nat) : Option FmtIo :=
  -- unpacked 8-bit UNORM (divisor 255)
  if f = 9 then some (FmtIo.unpacked 1 1 255 false)
  else if f = 16 then some (FmtIo.unpacked 2 1 255 false)
  else if f = 23 ∨ f = 30 then some (FmtIo.unpacked 3 1 255 false)
  else if f = 37 ∨ f = 44 then some (FmtIo.unpacked 4 1 255 false)
  -- unpacked 8-bit SNORM (divisor 127)
  else if f = 10 then some (FmtIo.unpacked 1 1 127 true)
  else if f = 17 then some (FmtIo.unpacked 2 1 127 true)
  else if f = 24 ∨ f = 31 then some (FmtIo.unpacked 3 1 127 true)
  else if f = 38 ∨ f = 45 then some (FmtIo.unpacked 4 1 127 true)
  -- unpacked 8-bit USCALED/UINT
  else if f = 11 ∨ f = 13 then some (FmtIo.unpacked 1 1 1 false)
  else if f = 18 ∨ f = 20 then some (FmtIo.unpacked 2 1 1 false)
  else if f = 25 ∨ f = 27 ∨ f = 32 ∨ f = 34 then some (FmtIo.unpacked 3 1 1 false)
  else if f = 39 ∨ f = 41 ∨ f = 46 ∨ f = 48 then some (FmtIo.unpacked 4 1 1 false)
  -- unpacked 8-bit SSCALED/SINT
  else if f = 12 ∨ f = 14 then some (FmtIo.unpacked 1 1 1 true)
  else if f = 19 ∨ f = 21 then some (FmtIo.unpacked 2 1 1 true)
  else if f = 26 ∨ f = 28 ∨ f = 33 ∨ f = 35 then some (FmtIo.unpacked 3 1 1 true)
  else if f = 40 ∨ f = 42 ∨ f = 47 ∨ f = 49 then some (FmtIo.unpacked 4 1 1 true)
  -- unpacked 16-bit UNORM (divisor 65535)
  else if f = 70 then some (FmtIo.unpacked 1 2 65535 false)
  else if f = 77 then some (FmtIo.unpacked 2 2 65535 false)
  else if f = 84 then some (FmtIo.unpacked 3 2 65535 false)
  else if f = 91 then some (FmtIo.unpacked 4 2 65535 false)
  -- unpacked 16-bit SNORM (divisor 32767)
  else if f = 71 then some (FmtIo.unpacked 1 2 32767 true)
  else if f = 78 then some (FmtIo.unpacked 2 2 32767 true)
  else if f = 85 then some (FmtIo.unpacked 3 2 32767 true)
  else if f = 92 then some (FmtIo.unpacked 4 2 32767 true)
  -- unpacked 16-bit USCALED/UINT
  else if f = 72 ∨ f = 74 then some (FmtIo.unpacked 1 2 1 false)
  else if f = 79 ∨ f = 81 then some (FmtIo.unpacked 2 2 1 false)
  else if f = 86 ∨ f = 88 then some (FmtIo.unpacked 3 2 1 false)
  else if f = 93 ∨ f = 95 then some (FmtIo.unpacked 4 2 1 false)
  -- unpacked 16-bit SSCALED/SINT
  else if f = 73 ∨ f = 75 then some (FmtIo.unpacked 1 2 1 true)
  else if f = 80 ∨ f = 82 then some (FmtIo.unpacked 2 2 1 true)
  else if f = 87 ∨ f = 89 then some (FmtIo.unpacked 3 2 1 true)
  else if f = 94 ∨ f = 96 then some (FmtIo.unpacked 4 2 1 true)
  -- unpacked 32-bit UINT / SINT
  else if f = 98 then some (FmtIo.unpacked 1 4 1 false)
  else if f = 101 then some (FmtIo.unpacked 2 4 1 false)
  else if f = 104 then some (FmtIo.unpacked 3 4 1 false)
  else if f = 107 then some (FmtIo.unpacked 4 4 1 false)
  else if f = 99 then some (FmtIo.unpacked 1 4 1 true)
  else if f = 102 then some (FmtIo.unpacked 2 4 1 true)
  else if f = 105 then some (FmtIo.unpacked 3 4 1 true)
  else if f = 108 then some (FmtIo.unpacked 4 4 1 true)
  -- packed bitfields
  else if f = 1 then some (FmtIo.packed [4, 4] true false)
  else if f = 2 ∨ f = 3 then some (FmtIo.packed [4, 4, 4, 4] true false)
  else if f = 4 ∨ f = 5 then some (FmtIo.packed [5, 6, 5] true false)
  else if f = 6 ∨ f = 7 ∨ f = 8 then some (FmtIo.packed [5, 5, 5, 1] true false)
  else if f = 51 then some (FmtIo.packed [8, 8, 8, 8] true false)
  else if f = 52 then some (FmtIo.packed [8, 8, 8, 8] true true)
  else if f = 53 then some (FmtIo.packed [8, 8, 8, 8] false false)
  else if f = 54 then some (FmtIo.packed [8, 8, 8, 8] false true)
  else if f = 55 then some (FmtIo.packed [8, 8, 8, 8] false false)
  else if f = 56 then some (FmtIo.packed [8, 8, 8, 8] false true)
  else if f = 58 ∨ f = 64 then some (FmtIo.packed [2, 10, 10, 10] true false)
  else if f = 59 ∨ f = 65 then some (FmtIo.packed [2, 10, 10, 10] true true)
  else if f = 60 ∨ f = 66 then some (FmtIo.packed [2, 10, 10, 10] false false)
  else if f = 61 ∨ f = 67 then some (FmtIo.packed [2, 10, 10, 10] false true)
  else if f = 62 ∨ f = 68 then some (FmtIo.packed [2, 10, 10, 10] false false)
  else if f = 63 ∨ f = 69 then some (FmtIo.packed [2, 10, 10, 10] false true)
  -- depth/stencil
  else if f = 124 then some (FmtIo.unpacked 1 2 65535 false)   -- d16Unorm
  else if f = 127 then some (FmtIo.unpacked 1 1 1 false)       -- s8Uint
  else if f = 128 then some FmtIo.dsD16S8
  else if f = 129 then some FmtIo.dsD24S8
  else if f = 125 then some FmtIo.dsX8D24
  else Option.none

/-- Little-endian byte encoding of a value in a fixed byte width. -/
def natToBytesLE : Nat → Nat → List Nat
  | 0, _ => []
  | w + 1, v => v % 256 :: natToBytesLE w (v / 256)

/-- Two's complement reading of an unsigned w-byte value. -/
def toSigned (bytes v : Nat) : Int :=
  if v < 2 ^ (8 * bytes - 1) then (v : Int) else (v : Int) - 2 ^ (8 * bytes)

/-- write<T>: store the value two's complement, little-endian, wrapping
modulo the component width. -/
def encodeComp (bytes : Nat) (x : Int) : List Nat :=
  natToBytesLE bytes ((x.emod ((2 : Int) ^ (8 * bytes))).toNat)

/-- Engine value vector (Vec4d of doubles). -/
structure Vec4q where
  c0 : Q
  c1 : Q
  c2 : Q
  c3 : Q
deriving DecidableEq, Repr

def vec4OfList (xs : List Q) : Vec4q :=
  ⟨xs.getD 0 ⟨0, 1⟩, xs.getD 1 ⟨0, 1⟩, xs.getD 2 ⟨0, 1⟩, xs.getD 3 ⟨0, 1⟩⟩

def vec4Comp (v : Vec4q) : Nat → Q
  | 0 => v.c0
  | 1 => v.c1
  | 2 => v.c2
  | _ => v.c3

/-- The first n components, the order the writers iterate in. -/
def vec4Take (n : Nat) (v : Vec4q) : List Q :=
  (List.range n).map (vec4Comp v)

/-- Post-read swizzle (formatSwizzle<false>): component i of the result is
source component A_i of the pattern. -/
def swizRead (k : SwizKind) (v : Vec4q) : Vec4q :=
  match k with
  | SwizKind.idn => v
  | SwizKind.bgra => ⟨v.c2, v.c1, v.c0, v.c3⟩
  | SwizKind.abgr => ⟨v.c3, v.c2, v.c1, v.c0⟩
  | SwizKind.argb => ⟨v.c1, v.c2, v.c3, v.c0⟩

/-- Pre-write swizzle (formatSwizzle<true>): component A_i of the result is
source component i. -/
def swizWrite (k : SwizKind) (v : Vec4q) : Vec4q :=
  match k with
  | SwizKind.idn => v
  | SwizKind.bgra => ⟨v.c2, v.c1, v.c0, v.c3⟩
  | SwizKind.abgr => ⟨v.c3, v.c2, v.c1, v.c0⟩
  | SwizKind.argb => ⟨v.c3, v.c0, v.c1, v.c2⟩

/-- FormatReader::call for unpacked formats: read each component,
convert to double, divide by the normalization factor. -/
def readComps (bytes fac : Nat) (signed : Bool) : Nat → List Nat → List Q
  | 0, _ => []
  | n + 1, buf =>
    let w := bytesToNatLE (buf.take bytes)
    let v : Int := if signed then toSigned bytes w else (w : Int)
    Q.div ⟨v, 1⟩ (Q.ofNat fac) :: readComps bytes fac signed n (buf.drop bytes)

/-- FormatWriter::call for unpacked formats: write T(Fac * src[i]) per
component. -/
def writeComps (bytes fac : Nat) : List Q → List Nat
  | [] => []
  | x :: rest =>
    encodeComp bytes (Q.trunc (Q.mul (Q.ofNat fac) x)) ++ writeComps bytes fac rest

def sumBits (bits : List Nat) : Nat := bits.foldr (· + ·) 0

/-- The field values of a packed word, first listed field in the top bits
(FormatReader::unpack recurses into the remaining fields first, then
extracts the low bits of the shifted word). -/
def packedFieldVals : List Nat → Nat → List Nat
  | [], _ => []
  | B :: rest, w => ((w >>> sumBits rest) &&& (2 ^ B - 1)) :: packedFieldVals rest w

/-- FormatReader::unpack per field: subtract the half range when signed
(the norm divisor then being halfLimit - 1), divide by the mask when
normalized. -/
def packedDecode (norm signed : Bool) (B u : Nat) : Q :=
  let limit := 2 ^ B
  let x : Int := if signed then (u : Int) - ((limit / 2 : Nat) : Int) else (u : Int)
  let mask : Nat := if signed then limit / 2 - 1 else limit - 1
  if norm then Q.div ⟨x, 1⟩ (Q.ofNat mask) else ⟨x, 1⟩

/-- FormatWriter::pack per field: scale by the mask when normalized (with
signFac 0.5), add the half range when signed, convert to u32. -/
def packedEncode (norm signed : Bool) (B : Nat) (x : Q) : Nat :=
  let limit := 2 ^ B
  let mask := limit - 1
  let c1 := if norm then Q.mul x (Q.ofNat mask) else x
  let c2 := if signed then
      Q.add (Q.mul (if norm then (⟨1, 2⟩ : Q) else ⟨1, 1⟩) c1) (Q.ofNat (limit / 2))
    else c1
  ((Q.trunc c2).emod ((2 : Int) ^ 32)).toNat

/-- FormatWriter::pack fold: dst = (dst << B) | (valUint & mask), field by
field in listed order. -/
def packedWords (norm signed : Bool) : List (Nat × Q) → Nat → Nat
  | [], dst => dst
  | (B, x) :: rest, dst =>
    let valUint := packedEncode norm signed B x
    packedWords norm signed rest ((dst <<< B) ||| (valUint &&& (2 ^ B - 1)))

def readPacked (bits : List Nat) (norm signed : Bool) (buf : List Nat) : List Q :=
  List.zipWith (packedDecode norm signed) bits (packedFieldVals bits (bytesToNatLE buf))

def writePacked (bits : List Nat) (norm signed : Bool) (v : Vec4q) : List Nat :=
  natToBytesLE (sumBits bits / 8)
    (packedWords norm signed (bits.zip (vec4Take bits.length v)) 0)

/-- Element size implied by the descriptor. -/
def texelSize (io : FmtIo) : Nat :=
  match io with
  | FmtIo.unpacked n bytes _ _ => n * bytes
  | FmtIo.packed bits _ _ => sumBits bits / 8
  | FmtIo.dsD16S8 => 3
  | FmtIo.dsD24S8 => 4
  | FmtIo.dsX8D24 => 4

/-- ioFormat<false> per descriptor (the Vec4d starts zero-initialized). -/
def ioRead (io : FmtIo) (buf : List Nat) : Vec4q :=
  match io with
  | FmtIo.unpacked n bytes fac signed => vec4OfList (readComps bytes fac signed n buf)
  | FmtIo.packed bits norm signed => vec4OfList (readPacked bits norm signed buf)
  | FmtIo.dsD16S8 =>
    ⟨Q.div (Q.ofNat (bytesToNatLE (buf.take 2))) (Q.ofNat 65535),
     Q.ofNat (buf.getD 2 0), ⟨0, 1⟩, ⟨0, 1⟩⟩
  | FmtIo.dsD24S8 =>
    ⟨Q.div (Q.ofNat (buf.getD 0 0 * 65536 + buf.getD 1 0 * 256 + buf.getD 2 0))
        (Q.ofNat 16777215),
     Q.ofNat (buf.getD 3 0), ⟨0, 1⟩, ⟨0, 1⟩⟩
  | FmtIo.dsX8D24 =>
    ⟨Q.div (Q.ofNat (bytesToNatLE (buf.take 4) &&& (2 ^ 24 - 1))) (Q.ofNat (2 ^ 24 - 1)),
     ⟨0, 1⟩, ⟨0, 1⟩, ⟨0, 1⟩⟩

/-- ioFormat<true> per descriptor. -/
def ioWrite (io : FmtIo) (v : Vec4q) : List Nat :=
  match io with
  | FmtIo.unpacked n bytes fac _ => writeComps bytes fac (vec4Take n v)
  | FmtIo.packed bits norm signed => writePacked bits norm signed v
  | FmtIo.dsD16S8 =>
    natToBytesLE 2 (((Q.trunc (Q.mul v.c0 (Q.ofNat 65535))).emod ((2 : Int) ^ 16)).toNat)
      ++ natToBytesLE 1 (((Q.trunc v.c1).emod ((2 : Int) ^ 8)).toNat)
  | FmtIo.dsD24S8 =>
    let d := ((Q.trunc (Q.mul (Q.ofNat 16777215) v.c0)).emod ((2 : Int) ^ 32)).toNat
    [(d >>> 16) &&& 255, (d >>> 8) &&& 255, d &&& 255,
     ((Q.trunc v.c1).emod ((2 : Int) ^ 8)).toNat]
  | FmtIo.dsX8D24 =>
    let d := ((Q.trunc (Q.mul (Q.ofNat (2 ^ 24 - 1)) v.c0)).emod ((2 : Int) ^ 32)).toNat
    natToBytesLE 4 d

/-- read(Format, span) from format.cpp: ioFormat then the post-read
swizzle. Unsupported formats leave the zero-initialized vector. -/
def readTexel (f : Nat) (buf : List Nat) : Vec4q :=
  match formatIo f with
  | Option.none => ⟨⟨0, 1⟩, ⟨0, 1⟩, ⟨0, 1⟩, ⟨0, 1⟩⟩
  | Option.some io => swizRead (formatSwizzle f) (ioRead io buf)

/-- write(Format, span, color) from format.cpp: pre-write swizzle then
ioFormat. Unsupported formats write nothing. -/
def writeTexel (f : Nat) (v : Vec4q) : List Nat :=
  match formatIo f with
  | Option.none => []
  | Option.some io => ioWrite io (swizWrite (formatSwizzle f) v)

/-- A byte sequence validly encodes a texel of format f: the modelled
length, bytes below 256, and — for x8D24UnormPack32, whose top eight bits
are not part of the texel — a zero top byte. -/
def validBuf (io : FmtIo) (buf : List Nat) : Bool :=
  buf.length == texelSize io && buf.all (· < 256)
    && (match io with
        | FmtIo.dsX8D24 => buf.getD 3 0 == 0
        | _ => true)

def validEnc (f : Nat) (buf : List Nat) : Bool :=
  match formatIo f with
  | Option.none => false
  | Option.some io => validBuf io buf

/-- C2 counterexample: for the packed SNORM format a8b8g8r8SnormPack32 and
the valid texel bytes 40 40 40 40 (all four fields 64), write(read(..))
returns 3F 3F 3F 3F: the read maps field value 64 to (64-128)/127 and the
write maps that back to 127.5*(64-128)/127 + 128 = 63.748.., which
truncates to 63. The claim's round-trip fails on packed SNORM formats. -/
theorem C2_counterexample_packed_snorm :
    validEnc Format.a8b8g8r8SnormPack32 [64, 64, 64, 64] = true ∧
    writeTexel Format.a8b8g8r8SnormPack32
      (readTexel Format.a8b8g8r8SnormPack32 [64, 64, 64, 64]) = [63, 63, 63, 63] ∧
    writeTexel Format.a8b8g8r8SnormPack32
      (readTexel Format.a8b8g8r8SnormPack32 [64, 64, 64, 64]) ≠ [64, 64, 64, 64] := by
  decide

/- Round-trip lemmas for the engine. -/

theorem swizWrite_swizRead (k : SwizKind) (v : Vec4q) : swizWrite k (swizRead k v) = v := by
  cases k <;> rfl

theorem bytesToNatLE_lt : ∀ bs : List Nat, (∀ b ∈ bs, b < 256) →
    bytesToNatLE bs < 256 ^ bs.length := by
  intro bs
  induction bs with
  | nil => intro _; simp [bytesToNatLE]
  | cons b rest ih =>
    intro h
    have hb : b < 256 := h b (by simp)
    have hr : bytesToNatLE rest < 256 ^ rest.length :=
      ih (fun x hx => h x (by simp [hx]))
    have hp : (256 : Nat) ^ (b :: rest).length = 256 ^ rest.length * 256 := by
      simp [List.length_cons, pow_succ]
    rw [hp]
    simp only [bytesToNatLE]
    omega

theorem natToBytesLE_bytesToNatLE : ∀ bs : List Nat, (∀ b ∈ bs, b < 256) →
    natToBytesLE bs.length (bytesToNatLE bs) = bs := by
  intro bs
  induction bs with
  | nil => intro _; rfl
  | cons b rest ih =>
    intro h
    have hb : b < 256 := h b (by simp)
    have h1 : (b + 256 * bytesToNatLE rest) % 256 = b := by omega
    have h2 : (b + 256 * bytesToNatLE rest) / 256 = bytesToNatLE rest := by omega
    simp only [List.length_cons, natToBytesLE, bytesToNatLE, h1, h2]
    rw [ih (fun x hx => h x (by simp [hx]))]

/-- trunc(fac * (v / fac)) = v in exact arithmetic, fac on the left as in
FormatWriter::call. -/
theorem q_trunc_mul_div_left (fac : Nat) (hfac : fac ≠ 0) (v : Int) :
    Q.trunc (Q.mul (Q.ofNat fac) (Q.div ⟨v, 1⟩ (Q.ofNat fac))) = v := by
  have h0 : (0 : Int) ≤ (fac : Int) := Int.natCast_nonneg fac
  simp only [Q.div, Q.ofNat, Q.mul, Q.trunc, h0, if_pos, Int.toNat_natCast]
  push_cast
  simp only [mul_one, one_mul]
  exact Int.mul_tdiv_cancel_left v (by exact_mod_cast hfac)

/-- trunc((w / fac) * fac) = w, fac on the right as in the depth16 write. -/
theorem q_trunc_mul_div_right (fac : Nat) (hfac : fac ≠ 0) (v : Int) :
    Q.trunc (Q.mul (Q.div ⟨v, 1⟩ (Q.ofNat fac)) (Q.ofNat fac)) = v := by
  have h0 : (0 : Int) ≤ (fac : Int) := Int.natCast_nonneg fac
  simp only [Q.div, Q.ofNat, Q.mul, Q.trunc, h0, if_pos, Int.toNat_natCast]
  push_cast
  simp only [mul_one, one_mul]
  exact Int.mul_tdiv_cancel v (by exact_mod_cast hfac)

theorem emod_toNat_of_lt {w M : Nat} (h : w < M) :
    (((w : Int)).emod ((M : Nat) : Int)).toNat = w := by
  show (((w : Int)) % ((M : Nat) : Int)).toNat = w
  rw [Int.emod_eq_of_lt (Int.natCast_nonneg w) (by exact_mod_cast h)]
  simp

theorem emod_toNat_toSigned (bytes w : Nat) (h : w < 2 ^ (8 * bytes)) :
    ((toSigned bytes w).emod ((2 : Int) ^ (8 * bytes))).toNat = w := by
  have hcast : ((2 : Int) ^ (8 * bytes)) = (((2 ^ (8 * bytes) : Nat) : Int)) := by
    push_cast; ring
  unfold toSigned
  split
  · rw [hcast]; exact emod_toNat_of_lt h
  · rw [hcast]
    show (((w : Int) - ((2 ^ (8 * bytes) : Nat) : Int)) % ((2 ^ (8 * bytes) : Nat) : Int)).toNat = w
    have hs : ((w : Int) - ((2 ^ (8 * bytes) : Nat) : Int)) % ((2 ^ (8 * bytes) : Nat) : Int)
        = ((w : Int)) % ((2 ^ (8 * bytes) : Nat) : Int) := by
      simp [Int.sub_emod]
    rw [hs]
    exact emod_toNat_of_lt h

theorem pow256_eq (bytes : Nat) : (256 : Nat) ^ bytes = 2 ^ (8 * bytes) := by
  rw [pow_mul]; norm_num

/-- Writing back the component decoded from a chunk reproduces the chunk. -/
theorem encodeComp_decode (bytes : Nat) (signed : Bool) (chunk : List Nat)
    (hlen : chunk.length = bytes) (hb : ∀ b ∈ chunk, b < 256) :
    encodeComp bytes
      (if signed then toSigned bytes (bytesToNatLE chunk) else ((bytesToNatLE chunk : Nat) : Int))
      = chunk := by
  have hw : bytesToNatLE chunk < 2 ^ (8 * bytes) := by
    have := bytesToNatLE_lt chunk hb
    rw [hlen, pow256_eq] at this
    exact this
  have hcast : ((2 : Int) ^ (8 * bytes)) = (((2 ^ (8 * bytes) : Nat) : Int)) := by
    push_cast; ring
  unfold encodeComp
  have hmod : ((if signed then toSigned bytes (bytesToNatLE chunk)
      else ((bytesToNatLE chunk : Nat) : Int)).emod ((2 : Int) ^ (8 * bytes))).toNat
      = bytesToNatLE chunk := by
    cases signed
    · show ((((bytesToNatLE chunk : Nat) : Int)).emod ((2 : Int) ^ (8 * bytes))).toNat = _
      rw [hcast]
      exact emod_toNat_of_lt hw
    · show ((toSigned bytes (bytesToNatLE chunk)).emod ((2 : Int) ^ (8 * bytes))).toNat = _
      exact emod_toNat_toSigned bytes _ hw
  rw [hmod, ← hlen]
  exact natToBytesLE_bytesToNatLE chunk hb

theorem readComps_length (bytes fac : Nat) (signed : Bool) :
    ∀ n buf, (readComps bytes fac signed n buf).length = n := by
  intro n
  induction n with
  | zero => intro _; rfl
  | succ n ih => intro buf; simp [readComps, ih]

/-- Unpacked round trip at the component-list level. -/
theorem writeComps_readComps (bytes fac : Nat) (signed : Bool) (hfac : fac ≠ 0) :
    ∀ n buf, buf.length = n * bytes → (∀ b ∈ buf, b < 256) →
      writeComps bytes fac (readComps bytes fac signed n buf) = buf := by
  intro n
  induction n with
  | zero =>
    intro buf hlen _
    have : buf = [] := List.length_eq_zero.mp (by simpa using hlen)
    subst this; rfl
  | succ n ih =>
    intro buf hlen hb
    have hmul : (n + 1) * bytes = n * bytes + bytes := Nat.succ_mul n bytes
    have hbl : bytes ≤ buf.length := by omega
    have htake : (buf.take bytes).length = bytes := by
      rw [List.length_take]; omega
    have hdrop : (buf.drop bytes).length = n * bytes := by
      rw [List.length_drop]; omega
    simp only [readComps, writeComps]
    rw [q_trunc_mul_div_left fac hfac]
    have hbtake : ∀ b ∈ buf.take bytes, b < 256 :=
      fun b hbm => hb b (List.mem_of_mem_take hbm)
    have hbdrop : ∀ b ∈ buf.drop bytes, b < 256 :=
      fun b hbm => hb b (List.mem_of_mem_drop hbm)
    rw [encodeComp_decode bytes signed (buf.take bytes) htake hbtake]
    rw [ih (buf.drop bytes) hdrop hbdrop]
    exact List.take_append_drop bytes buf

theorem vec4Take_vec4OfList : ∀ xs : List Q, xs.length ≤ 4 →
    vec4Take xs.length (vec4OfList xs) = xs := by
  intro xs h
  match xs with
  | [] => rfl
  | [a] => rfl
  | [a, b] => rfl
  | [a, b, c] => rfl
  | [a, b, c, d] => rfl
  | a :: b :: c :: d :: e :: rest => simp at h

theorem sumBits_cons (B : Nat) (rest : List Nat) :
    sumBits (B :: rest) = B + sumBits rest := rfl

theorem packedFieldVals_length : ∀ (bits : List Nat) (w : Nat),
    (packedFieldVals bits w).length = bits.length := by
  intro bits
  induction bits with
  | nil => intro w; rfl
  | cons B rest ih => intro w; simp [packedFieldVals, ih]

/-- Field extraction only looks at the low sumBits bits. -/
theorem packedFieldVals_mod : ∀ (bits : List Nat) (w S : Nat), sumBits bits ≤ S →
    packedFieldVals bits (w % 2 ^ S) = packedFieldVals bits w := by
  intro bits
  induction bits with
  | nil => intro w S _; rfl
  | cons B rest ih =>
    intro w S hS
    rw [sumBits_cons] at hS
    unfold packedFieldVals
    have hfield : ((w % 2 ^ S) >>> sumBits rest) &&& (2 ^ B - 1)
        = (w >>> sumBits rest) &&& (2 ^ B - 1) := by
      rw [Nat.shiftRight_eq_div_pow, Nat.shiftRight_eq_div_pow,
        Nat.and_pow_two_sub_one_eq_mod, Nat.and_pow_two_sub_one_eq_mod]
      have h2 : (2 : Nat) ^ S = 2 ^ sumBits rest * 2 ^ (S - sumBits rest) := by
        rw [← pow_add]; congr 1; omega
      rw [h2, Nat.mod_mul_right_div_self]
      exact Nat.mod_mod_of_dvd _ (pow_dvd_pow 2 (by omega))
    rw [hfield, ih w S (by omega)]

theorem zip_zipWith (g : Nat → Nat → Q) : ∀ (bits fields : List Nat),
    bits.zip (List.zipWith g bits fields)
      = List.zipWith (fun b u => (b, g b u)) bits fields := by
  intro bits
  induction bits with
  | nil => intro fields; rfl
  | cons B rest ih =>
    intro fields
    cases fields with
    | nil => rfl
    | cons u us => simp [List.zip_cons_cons, ih]

/-- Bitwise or of a low-bits-clear value and a small value is addition. -/
theorem lor_small {x b n : Nat} (hx : x % 2 ^ n = 0) (hb : b < 2 ^ n) :
    x ||| b = x + b := by
  have hdecomp : 2 ^ n * (x / 2 ^ n) = x := by
    have := Nat.div_add_mod x (2 ^ n)
    omega
  calc x ||| b = 2 ^ n * (x / 2 ^ n) ||| b := by rw [hdecomp]
    _ = 2 ^ n * (x / 2 ^ n) + b := (Nat.mul_add_lt_is_or hb _).symm
    _ = x + b := by rw [hdecomp]

theorem wrap32_and_mask {u B : Nat} (hB : B ≤ 32) (hu : u < 2 ^ B) :
    (((u : Int)).emod ((2 : Int) ^ 32)).toNat &&& (2 ^ B - 1) = u := by
  have hlt : u < 2 ^ 32 := lt_of_lt_of_le hu (Nat.pow_le_pow_right (by norm_num) hB)
  have hwrap : (((u : Int)).emod ((2 : Int) ^ 32)).toNat = u := by
    have hcast : ((2 : Int) ^ 32) = (((2 ^ 32 : Nat) : Int)) := by norm_num
    rw [hcast]; exact emod_toNat_of_lt hlt
  rw [hwrap]
  exact Nat.and_pow_two_sub_one_of_lt_two_pow hu

/-- Per-field pack(unpack) cancellation for the three sound flag
combinations (packed SNORM, i.e. norm and signed together, is excluded:
the counterexample shows it does not cancel). -/
theorem packedEncode_packedDecode (norm signed : Bool)
    (hns : ¬(norm = true ∧ signed = true)) (B u : Nat) (hB : 0 < B)
    (hB32 : B ≤ 32) (hu : u < 2 ^ B) :
    packedEncode norm signed B (packedDecode norm signed B u) &&& (2 ^ B - 1) = u := by
  have hmask : (2 : Nat) ^ B - 1 ≠ 0 := by
    have : (2 : Nat) ^ B ≥ 2 ^ 1 := Nat.pow_le_pow_right (by norm_num) hB
    omega
  cases norm with
  | false =>
    cases signed with
    | false =>
      simp only [packedDecode, packedEncode, if_neg, Bool.false_eq_true, ite_false]
      have htr : Q.trunc ⟨(u : Int), 1⟩ = (u : Int) := by
        simp [Q.trunc]
      rw [htr]
      exact wrap32_and_mask hB32 hu
    | true =>
      simp only [packedDecode, packedEncode, Bool.false_eq_true, ite_false, ite_true]
      have htr : Q.trunc (Q.add (Q.mul ⟨1, 1⟩ ⟨(u : Int) - ((2 ^ B / 2 : Nat) : Int), 1⟩)
          (Q.ofNat (2 ^ B / 2))) = (u : Int) := by
        simp [Q.add, Q.mul, Q.ofNat, Q.trunc]
      rw [htr]
      exact wrap32_and_mask hB32 hu
  | true =>
    cases signed with
    | false =>
      simp only [packedDecode, packedEncode, Bool.false_eq_true, ite_false, ite_true]
      have htr : Q.trunc (Q.mul (Q.div ⟨(u : Int), 1⟩ (Q.ofNat (2 ^ B - 1)))
          (Q.ofNat (2 ^ B - 1))) = (u : Int) :=
        q_trunc_mul_div_right (2 ^ B - 1) hmask (u : Int)
      rw [htr]
      exact wrap32_and_mask hB32 hu
    | true => exact absurd ⟨rfl, rfl⟩ hns

/-- The pack fold over the decoded fields rebuilds the word (into the low
bits of the accumulator). -/
theorem packedWords_fieldVals (norm signed : Bool)
    (hns : ¬(norm = true ∧ signed = true)) :
    ∀ (bits : List Nat) (w dst : Nat), (∀ B ∈ bits, 0 < B ∧ B ≤ 32) →
      w < 2 ^ sumBits bits →
      packedWords norm signed
        (List.zipWith (fun B u => (B, packedDecode norm signed B u)) bits
          (packedFieldVals bits w)) dst
        = dst * 2 ^ sumBits bits + w := by
  intro bits
  induction bits with
  | nil =>
    intro w dst _ hw
    have : w = 0 := by simpa [sumBits] using hw
    subst this
    simp [packedWords, sumBits]
  | cons B rest ih =>
    intro w dst hB hw
    have hBpos : 0 < B ∧ B ≤ 32 := hB B (by simp)
    rw [sumBits_cons] at hw
    have hq : w >>> sumBits rest = w / 2 ^ sumBits rest := Nat.shiftRight_eq_div_pow _ _
    have hqlt : w / 2 ^ sumBits rest < 2 ^ B := by
      rw [Nat.div_lt_iff_lt_mul (Nat.pos_pow_of_pos _ (by norm_num)), ← pow_add]
      exact hw
    have hfield : (w >>> sumBits rest) &&& (2 ^ B - 1) = w / 2 ^ sumBits rest := by
      rw [hq]
      exact Nat.and_pow_two_sub_one_of_lt_two_pow hqlt
    simp only [packedFieldVals, List.zipWith, packedWords, hfield]
    have henc := packedEncode_packedDecode norm signed hns B (w / 2 ^ sumBits rest)
      hBpos.1 hBpos.2 hqlt
    rw [henc]
    have hrest : packedFieldVals rest w = packedFieldVals rest (w % 2 ^ sumBits rest) :=
      (packedFieldVals_mod rest w (sumBits rest) le_rfl).symm
    rw [hrest]
    have hmodlt : w % 2 ^ sumBits rest < 2 ^ sumBits rest :=
      Nat.mod_lt _ (Nat.pos_pow_of_pos _ (by norm_num))
    rw [ih (w % 2 ^ sumBits rest) ((dst <<< B) ||| (w / 2 ^ sumBits rest))
      (fun x hx => hB x (by simp [hx])) hmodlt]
    have hor : (dst <<< B) ||| (w / 2 ^ sumBits rest) = dst * 2 ^ B + w / 2 ^ sumBits rest := by
      have hx : (dst <<< B) % 2 ^ B = 0 := by
        rw [Nat.shiftLeft_eq]
        exact Nat.mul_mod_left dst (2 ^ B)
      have := lor_small hx hqlt
      rw [Nat.shiftLeft_eq] at this ⊢
      exact this
    rw [hor]
    have hdm := Nat.div_add_mod w (2 ^ sumBits rest)
    rw [sumBits_cons, pow_add]
    nlinarith [hdm]

theorem q_trunc_mul_div_left_nat (fac : Nat) (hfac : fac ≠ 0) (w : Nat) :
    Q.trunc (Q.mul (Q.ofNat fac) (Q.div (Q.ofNat w) (Q.ofNat fac))) = (w : Int) :=
  q_trunc_mul_div_left fac hfac (w : Int)

theorem q_trunc_mul_div_right_nat (fac : Nat) (hfac : fac ≠ 0) (w : Nat) :
    Q.trunc (Q.mul (Q.div (Q.ofNat w) (Q.ofNat fac)) (Q.ofNat fac)) = (w : Int) :=
  q_trunc_mul_div_right fac hfac (w : Int)

theorem q_trunc_ofNat (s : Nat) : Q.trunc (Q.ofNat s) = (s : Int) := by
  simp [Q.trunc, Q.ofNat]

theorem emod_pow2_toNat {w : Nat} (n : Nat) (h : w < 2 ^ n) :
    (((w : Int)).emod ((2 : Int) ^ n)).toNat = w := by
  have hcast : ((2 : Int) ^ n) = (((2 ^ n : Nat) : Int)) := by norm_cast
  rw [hcast]
  exact emod_toNat_of_lt h

/-- Packed round trip at the format level. -/
theorem writePacked_readPacked (bits : List Nat) (norm signed : Bool)
    (hns : ¬(norm = true ∧ signed = true))
    (hbits : ∀ B ∈ bits, 0 < B ∧ B ≤ 32) (hlen4 : bits.length ≤ 4)
    (buf : List Nat) (hbuflen : 8 * buf.length = sumBits bits)
    (hbytes : ∀ b ∈ buf, b < 256) :
    writePacked bits norm signed (vec4OfList (readPacked bits norm signed buf)) = buf := by
  have hwlt : bytesToNatLE buf < 2 ^ sumBits bits := by
    have h1 := bytesToNatLE_lt buf hbytes
    have h256 : (256 : Nat) ^ buf.length = 2 ^ sumBits bits := by
      rw [pow256_eq, hbuflen]
    rw [h256] at h1
    exact h1
  unfold writePacked readPacked
  have hfl : (packedFieldVals bits (bytesToNatLE buf)).length = bits.length :=
    packedFieldVals_length bits _
  have hzl : (List.zipWith (packedDecode norm signed) bits
      (packedFieldVals bits (bytesToNatLE buf))).length = bits.length := by
    rw [List.length_zipWith, hfl, Nat.min_self]
  have hvt := vec4Take_vec4OfList
    (List.zipWith (packedDecode norm signed) bits (packedFieldVals bits (bytesToNatLE buf)))
    (by rw [hzl]; exact hlen4)
  rw [hzl] at hvt
  rw [hvt, zip_zipWith (packedDecode norm signed) bits
    (packedFieldVals bits (bytesToNatLE buf))]
  rw [packedWords_fieldVals norm signed hns bits (bytesToNatLE buf) 0 hbits hwlt]
  rw [Nat.zero_mul, Nat.zero_add]
  have hdiv : sumBits bits / 8 = buf.length := by omega
  rw [hdiv]
  exact natToBytesLE_bytesToNatLE buf hbytes

theorem list_len3 {α : Type} : ∀ (l : List α), l.length = 3 → ∃ a b c, l = [a, b, c] := by
  intro l h
  match l, h with
  | [a, b, c], _ => exact ⟨a, b, c, rfl⟩

theorem list_len4 {α : Type} : ∀ (l : List α), l.length = 4 →
    ∃ a b c d, l = [a, b, c, d] := by
  intro l h
  match l, h with
  | [a, b, c, d], _ => exact ⟨a, b, c, d, rfl⟩

/-- d16UnormS8Uint round trip: two depth bytes and the stencil byte. -/
theorem ds16_roundtrip (a b s : Nat) (ha : a < 256) (hb : b < 256) (hs : s < 256) :
    ioWrite FmtIo.dsD16S8 (ioRead FmtIo.dsD16S8 [a, b, s]) = [a, b, s] := by
  have hw : bytesToNatLE [a, b] < 2 ^ 16 := by
    simp [bytesToNatLE]; omega
  simp only [ioRead, ioWrite, List.take_succ_cons, List.take_zero, List.getD_cons_succ,
    List.getD_cons_zero]
  rw [q_trunc_mul_div_right_nat 65535 (by norm_num) (bytesToNatLE [a, b])]
  rw [q_trunc_ofNat, emod_pow2_toNat 16 hw, emod_pow2_toNat 8 hs]
  have h2 := natToBytesLE_bytesToNatLE [a, b] (by intro x hx; simp at hx; omega)
  simp only [List.length_cons, List.length_nil] at h2
  rw [h2]
  simp [natToBytesLE, Nat.mod_eq_of_lt hs, Nat.div_eq_of_lt hs]

/-- d24UnormS8Uint round trip: three big-endian-ish depth bytes packed into
a 24-bit value, plus the stencil byte. -/
theorem ds24_roundtrip (x y z s : Nat) (hx : x < 256) (hy : y < 256) (hz : z < 256)
    (hs : s < 256) :
    ioWrite FmtIo.dsD24S8 (ioRead FmtIo.dsD24S8 [x, y, z, s]) = [x, y, z, s] := by
  simp only [ioRead, ioWrite, List.getD_cons_zero, List.getD_cons_succ]
  rw [q_trunc_mul_div_left_nat 16777215 (by norm_num) (x * 65536 + y * 256 + z)]
  have hN : x * 65536 + y * 256 + z < 2 ^ 32 := by omega
  rw [emod_pow2_toNat 32 hN, q_trunc_ofNat, emod_pow2_toNat 8 hs]
  have h255 : (255 : Nat) = 2 ^ 8 - 1 := by norm_num
  have h1 : ((x * 65536 + y * 256 + z) >>> 16) &&& 255 = x := by
    rw [Nat.shiftRight_eq_div_pow, h255, Nat.and_pow_two_sub_one_eq_mod]
    omega
  have h2 : ((x * 65536 + y * 256 + z) >>> 8) &&& 255 = y := by
    rw [Nat.shiftRight_eq_div_pow, h255, Nat.and_pow_two_sub_one_eq_mod]
    omega
  have h3 : (x * 65536 + y * 256 + z) &&& 255 = z := by
    rw [h255, Nat.and_pow_two_sub_one_eq_mod]
    omega
  rw [h1, h2, h3]

/-- x8D24UnormPack32 round trip on buffers whose unused top byte is 0. -/
theorem dsx8_roundtrip (x y z : Nat) (hx : x < 256) (hy : y < 256) (hz : z < 256) :
    ioWrite FmtIo.dsX8D24 (ioRead FmtIo.dsX8D24 [x, y, z, 0]) = [x, y, z, 0] := by
  have hN : bytesToNatLE [x, y, z, 0] < 2 ^ 24 := by
    simp [bytesToNatLE]; omega
  have hand : bytesToNatLE [x, y, z, 0] &&& (2 ^ 24 - 1) = bytesToNatLE [x, y, z, 0] :=
    Nat.and_pow_two_sub_one_of_lt_two_pow hN
  simp only [ioRead, ioWrite, List.take_succ_cons, List.take_zero]
  rw [hand]
  rw [q_trunc_mul_div_left_nat (2 ^ 24 - 1) (by norm_num) (bytesToNatLE [x, y, z, 0])]
  rw [emod_pow2_toNat 32 (lt_trans hN (by norm_num))]
  have h4 := natToBytesLE_bytesToNatLE [x, y, z, 0] (by intro v hv; simp at hv; omega)
  simp only [List.length_cons, List.length_nil] at h4
  exact h4

/-- The descriptors whose read/write pair is an exact inverse: unpacked
integer components with at most four components and a nonzero divisor,
packed bitfields of byte-multiple total width that are not SNORM-style
(normalized and signed together), and the three depth/stencil cases. -/
def goodIo : FmtIo → Bool
  | FmtIo.unpacked n _ fac _ => decide (n ≤ 4) && (fac != 0)
  | FmtIo.packed bits norm signed =>
    bits.all (fun B => decide (0 < B) && decide (B ≤ 32)) && decide (bits.length ≤ 4)
      && decide (8 * (sumBits bits / 8) = sumBits bits) && !(norm && signed)
  | FmtIo.dsD16S8 => true
  | FmtIo.dsD24S8 => true
  | FmtIo.dsX8D24 => true

/-- Read/write round trip at the descriptor level for every good
descriptor, on buffers of the right length made of bytes. -/
theorem io_roundtrip (io : FmtIo) (hio : goodIo io = true) (buf : List Nat)
    (hv : validBuf io buf = true) : ioWrite io (ioRead io buf) = buf := by
  cases io with
  | unpacked n bytes fac signed =>
    simp only [goodIo, Bool.and_eq_true, decide_eq_true_eq, bne_iff_ne, ne_eq] at hio
    simp only [validBuf, texelSize, Bool.and_eq_true, beq_iff_eq, List.all_eq_true,
      decide_eq_true_eq] at hv
    obtain ⟨⟨hlen, hb⟩, -⟩ := hv
    simp only [ioRead, ioWrite]
    have hL : (readComps bytes fac signed n buf).length = n := readComps_length _ _ _ n buf
    have hvt := vec4Take_vec4OfList (readComps bytes fac signed n buf)
      (by rw [hL]; exact hio.1)
    rw [hL] at hvt
    rw [hvt]
    exact writeComps_readComps bytes fac signed hio.2 n buf hlen hb
  | packed bits norm signed =>
    simp only [goodIo, Bool.and_eq_true, List.all_eq_true, decide_eq_true_eq,
      Bool.not_eq_true'] at hio
    obtain ⟨⟨⟨hbits, hlen4⟩, h8⟩, hns0⟩ := hio
    have hbits2 : ∀ B ∈ bits, 0 < B ∧ B ≤ 32 := by
      intro B hB
      have := hbits B hB
      simp only [Bool.and_eq_true, decide_eq_true_eq] at this
      exact this
    have hns : ¬(norm = true ∧ signed = true) := by
      intro h
      rw [h.1, h.2] at hns0
      simp at hns0
    simp only [validBuf, texelSize, Bool.and_eq_true, beq_iff_eq, List.all_eq_true,
      decide_eq_true_eq] at hv
    obtain ⟨⟨hlen, hb⟩, -⟩ := hv
    simp only [ioRead, ioWrite]
    exact writePacked_readPacked bits norm signed hns hbits2 hlen4 buf (by omega) hb
  | dsD16S8 =>
    simp only [validBuf, texelSize, Bool.and_eq_true, beq_iff_eq, List.all_eq_true,
      decide_eq_true_eq] at hv
    obtain ⟨⟨hlen, hb⟩, -⟩ := hv
    obtain ⟨a, b, s, rfl⟩ := list_len3 buf hlen
    exact ds16_roundtrip a b s (hb a (by simp)) (hb b (by simp)) (hb s (by simp))
  | dsD24S8 =>
    simp only [validBuf, texelSize, Bool.and_eq_true, beq_iff_eq, List.all_eq_true,
      decide_eq_true_eq] at hv
    obtain ⟨⟨hlen, hb⟩, -⟩ := hv
    obtain ⟨x, y, z, s, rfl⟩ := list_len4 buf hlen
    exact ds24_roundtrip x y z s (hb x (by simp)) (hb y (by simp)) (hb z (by simp))
      (hb s (by simp))
  | dsX8D24 =>
    simp only [validBuf, texelSize, Bool.and_eq_true, beq_iff_eq, List.all_eq_true,
      decide_eq_true_eq] at hv
    obtain ⟨⟨hlen, hb⟩, htop⟩ := hv
    obtain ⟨x, y, z, w, rfl⟩ := list_len4 buf hlen
    simp only [List.getD_cons_succ, List.getD_cons_zero] at htop
    subst htop
    exact dsx8_roundtrip x y z (hb x (by simp)) (hb y (by simp)) (hb z (by simp))

/-- The integer-component formats the engine supports, excluding the
packed SNORM ones (a8b8g8r8SnormPack32, a2r10g10b10SnormPack32,
a2b10g10r10SnormPack32) whose round trip the counterexample refutes. -/
def c2Formats : List Nat :=
  [9, 16, 23, 30, 37, 44, 10, 17, 24, 31, 38, 45,
   11, 13, 18, 20, 25, 27, 32, 34, 39, 41, 46, 48,
   12, 14, 19, 21, 26, 28, 33, 35, 40, 42, 47, 49,
   70, 77, 84, 91, 71, 78, 85, 92,
   72, 74, 79, 81, 86, 88, 93, 95, 73, 75, 80, 82, 87, 89, 94, 96,
   98, 101, 104, 107, 99, 102, 105, 108,
   1, 2, 3, 4, 5, 6, 7, 8,
   51, 53, 54, 55, 56,
   58, 64, 60, 66, 61, 67, 62, 68, 63, 69,
   124, 127, 128, 129, 125]

/-- C2 (amended): for every integer-component format the engine supports
other than the packed SNORM ones, write(format, read(format, texel))
reproduces the texel exactly, for every valid encoding of a texel. The
claim's full quantification fails on packed SNORM (see the
counterexample); float-component, 64-bit-component, sRGB, b10g11r11 and
e5b9g9r9 formats are outside the exact-integer model and this list. -/
theorem C2_integer_texel_roundtrip (f : Nat) (hf : f ∈ c2Formats) (buf : List Nat)
    (hv : validEnc f buf = true) : writeTexel f (readTexel f buf) = buf := by
  have hall : c2Formats.all
      (fun g => match formatIo g with
        | Option.some io => goodIo io
        | Option.none => false) = true := by decide
  have hgood := List.all_eq_true.mp hall f hf
  cases hio : formatIo f with
  | none =>
    rw [hio] at hgood
    simp at hgood
  | some io =>
    rw [hio] at hgood
    simp only [validEnc, hio] at hv
    simp only [writeTexel, readTexel, hio]
    rw [swizWrite_swizRead]
    exact io_roundtrip io hgood buf hv

/-- C2 witness: the b8g8r8a8Unorm roundtrip on the texel 01 02 03 04. -/
theorem C2_witness :
    (44 : Nat) ∈ c2Formats ∧ validEnc 44 [1, 2, 3, 4] = true ∧
    writeTexel 44 (readTexel 44 [1, 2, 3, 4]) = [1, 2, 3, 4] :=
  ⟨by decide, by decide,
    C2_integer_texel_roundtrip 44 (by decide) [1, 2, 3, 4] (by decide)⟩

/- Transfer of the exact-fraction arithmetic to the rationals, for the
order-theoretic analysis of the shared-exponent encoder. -/

theorem Q.val_ofNat (n : Nat) : (Q.ofNat n).val = (n : Rat) := by
  simp [Q.val, Q.ofNat]

theorem Q.val_half : (⟨1, 2⟩ : Q).val = 1 / 2 := by
  simp [Q.val]

theorem Q.val_nonneg (a : Q) (h : 0 ≤ a.num) : 0 ≤ a.val := by
  unfold Q.val
  apply div_nonneg
  · exact_mod_cast h
  · positivity

theorem Q.val_add (a b : Q) (ha : 0 < a.den) (hb : 0 < b.den) :
    (Q.add a b).val = a.val + b.val := by
  have ha' : ((a.den : Rat)) ≠ 0 := by positivity
  have hb' : ((b.den : Rat)) ≠ 0 := by positivity
  simp only [Q.val, Q.add]
  push_cast
  field_simp

theorem Q.val_mul (a b : Q) : (Q.mul a b).val = a.val * b.val := by
  simp only [Q.val, Q.mul]
  push_cast
  rw [div_mul_div_comm]

theorem Q.val_div (a b : Q) (hb : 0 < b.num) :
    (Q.div a b).val = a.val / b.val := by
  have h0 : (0 : Int) ≤ b.num := le_of_lt hb
  simp only [Q.div, Q.val, if_pos h0]
  push_cast
  have hc : ((b.num.toNat : Nat) : Rat) = (b.num : Rat) := by
    exact_mod_cast Int.toNat_of_nonneg h0
  rw [hc, div_eq_mul_inv (((a.num : Rat)) / ((a.den : Rat))), inv_div, div_mul_div_comm]

theorem Q.val_lt_iff (a b : Q) (ha : 0 < a.den) (hb : 0 < b.den) :
    a.lt b ↔ a.val < b.val := by
  have ha' : (0 : Rat) < a.den := by exact_mod_cast ha
  have hb' : (0 : Rat) < b.den := by exact_mod_cast hb
  unfold Q.val Q.lt
  rw [div_lt_div_iff₀ ha' hb']
  constructor <;> intro h <;> exact_mod_cast h

theorem Q.val_le_iff (a b : Q) (ha : 0 < a.den) (hb : 0 < b.den) :
    a.le b ↔ a.val ≤ b.val := by
  have ha' : (0 : Rat) < a.den := by exact_mod_cast ha
  have hb' : (0 : Rat) < b.den := by exact_mod_cast hb
  unfold Q.val Q.le
  rw [div_le_div_iff₀ ha' hb']
  constructor <;> intro h <;> exact_mod_cast h

theorem Q.val_floor (a : Q) : Q.floor a = ⌊a.val⌋ := by
  unfold Q.floor Q.val
  rw [Rat.floor_intCast_div_natCast]

theorem Q.val_pow2 (e : Int) : (Q.pow2 e).val = (2 : Rat) ^ e := by
  unfold Q.pow2
  split
  · rename_i h
    simp only [Q.val]
    push_cast
    rw [div_one, ← zpow_natCast (2 : Rat) e.toNat, Int.toNat_of_nonneg h]
  · rename_i h
    have he : (0 : Int) ≤ -e := by omega
    simp only [Q.val]
    push_cast
    rw [one_div, ← zpow_natCast (2 : Rat) (-e).toNat, Int.toNat_of_nonneg he, ← zpow_neg,
      neg_neg]

theorem Q.pow2_den_pos (e : Int) : 0 < (Q.pow2 e).den := by
  unfold Q.pow2
  split
  · exact Nat.one_pos
  · exact Nat.pos_pow_of_pos _ (by norm_num)

theorem Q.pow2_num_pos (e : Int) : 0 < (Q.pow2 e).num := by
  unfold Q.pow2
  split
  · exact pow_pos (by norm_num) _
  · exact Int.one_pos

theorem Q.div_den_pos (a b : Q) (ha : 0 < a.den) (hb : 0 < b.num) :
    0 < (Q.div a b).den := by
  unfold Q.div
  rw [if_pos (le_of_lt hb)]
  have : 0 < b.num.toNat := by omega
  exact Nat.mul_pos ha this

theorem Q.maxq_val (a b : Q) (ha : 0 < a.den) (hb : 0 < b.den) :
    (Q.maxq a b).val = max a.val b.val := by
  unfold Q.maxq
  split
  · rename_i h
    rw [max_eq_right (le_of_lt ((Q.val_lt_iff a b ha hb).mp h))]
  · rename_i h
    rw [max_eq_left (le_of_not_lt (fun hc => h ((Q.val_lt_iff a b ha hb).mpr hc)))]

theorem Q.maxq_den_pos (a b : Q) (ha : 0 < a.den) (hb : 0 < b.den) :
    0 < (Q.maxq a b).den := by
  unfold Q.maxq
  split <;> assumption

theorem Q.maxq_num_nonneg (a b : Q) (ha : 0 ≤ a.num) (hb : 0 ≤ b.num) :
    0 ≤ (Q.maxq a b).num := by
  unfold Q.maxq
  split <;> assumption

theorem natLog2Aux_bounds : ∀ (fuel n : Nat), 1 ≤ n → n ≤ fuel →
    2 ^ natLog2Aux fuel n ≤ n ∧ n < 2 ^ (natLog2Aux fuel n + 1) := by
  intro fuel
  induction fuel with
  | zero => intro n h1 h2; omega
  | succ fuel ih =>
    intro n h1 h2
    simp only [natLog2Aux]
    split
    · rename_i h
      have hn : n = 1 := by omega
      subst hn
      simp
    · rename_i h
      have h1' : 1 ≤ n / 2 := by omega
      have h2' : n / 2 ≤ fuel := by omega
      obtain ⟨hlo, hhi⟩ := ih (n / 2) h1' h2'
      constructor
      · rw [pow_succ]
        omega
      · rw [pow_succ]
        omega

theorem natLog2_bounds (n : Nat) (h : 1 ≤ n) :
    2 ^ natLog2 n ≤ n ∧ n < 2 ^ (natLog2 n + 1) :=
  natLog2Aux_bounds n n h le_rfl

theorem natClog2Aux_le_one (fuel : Nat) : ∀ n, n ≤ 1 → natClog2Aux fuel n = 0 := by
  cases fuel <;> intro n h <;> simp [natClog2Aux, h]

theorem natClog2Aux_bounds : ∀ (fuel m : Nat), 2 ≤ m → m ≤ fuel →
    1 ≤ natClog2Aux fuel m ∧ m ≤ 2 ^ natClog2Aux fuel m ∧
      2 ^ natClog2Aux fuel m < 2 * m := by
  intro fuel
  induction fuel with
  | zero => intro m h1 h2; omega
  | succ fuel ih =>
    intro m h1 h2
    simp only [natClog2Aux]
    rw [if_neg (by omega)]
    by_cases hm : m = 2
    · subst hm
      rw [show ((2 + 1) / 2 : Nat) = 1 from rfl, natClog2Aux_le_one fuel 1 (by norm_num)]
      norm_num
    · have h1' : 2 ≤ (m + 1) / 2 := by omega
      have h2' : (m + 1) / 2 ≤ fuel := by omega
      obtain ⟨hc1, hlo, hhi⟩ := ih ((m + 1) / 2) h1' h2'
      have hy : 2 ^ natClog2Aux fuel ((m + 1) / 2)
          = 2 * 2 ^ (natClog2Aux fuel ((m + 1) / 2) - 1) := by
        rw [← pow_succ']
        congr 1
        omega
      refine ⟨by omega, ?_, ?_⟩ <;> rw [pow_succ] <;> omega

theorem natClog2_bounds (m : Nat) (h : 2 ≤ m) :
    1 ≤ natClog2 m ∧ m ≤ 2 ^ natClog2 m ∧ 2 ^ natClog2 m < 2 * m :=
  natClog2Aux_bounds m m h le_rfl

/-- Upper bound of the biased-exponent extraction: x < 2^(floorLog2 x + 1)
for every nonnegative well-formed fraction. -/
theorem floorLog2_ub (x : Q) (hden : 0 < x.den) (hnum : 0 ≤ x.num) :
    x.val < (2 : Rat) ^ (floorLog2 x + 1) := by
  unfold floorLog2
  split
  · rename_i h0
    have hv : x.val = 0 := by
      unfold Q.val
      rw [h0]
      simp
    rw [hv]
    positivity
  · split
    · rename_i h0 h1
      have h1' : (1 : Rat) ≤ x.val := by
        have := (Q.val_le_iff (Q.ofNat 1) x (by exact Nat.one_pos) hden).mp h1
        rw [Q.val_ofNat] at this
        exact_mod_cast this
      have hfl : (1 : Int) ≤ ⌊x.val⌋ := by
        rw [Int.le_floor]
        exact_mod_cast h1'
      have hfn : x.floorNat = ⌊x.val⌋.toNat := by
        unfold Q.floorNat
        rw [← Q.val_floor]
        rfl
      have hn1 : 1 ≤ x.floorNat := by omega
      obtain ⟨-, hhi⟩ := natLog2_bounds x.floorNat hn1
      have hlt : x.val < ((x.floorNat : Nat) : Rat) + 1 := by
        have := Int.lt_floor_add_one x.val
        have hcast : ((x.floorNat : Nat) : Rat) = ((⌊x.val⌋ : Int) : Rat) := by
          rw [hfn]
          exact_mod_cast Int.toNat_of_nonneg (by omega)
        rw [hcast]
        exact_mod_cast this
      have hle : ((x.floorNat : Nat) : Rat) + 1 ≤ ((2 ^ (natLog2 x.floorNat + 1) : Nat) : Rat) := by
        exact_mod_cast hhi
      have hzp : ((2 ^ (natLog2 x.floorNat + 1) : Nat) : Rat)
          = (2 : Rat) ^ (((natLog2 x.floorNat : Nat) : Int) + 1) := by
        push_cast
        rw [← zpow_natCast (2 : Rat) (natLog2 x.floorNat + 1)]
        push_cast
        ring_nf
      calc x.val < ((x.floorNat : Nat) : Rat) + 1 := hlt
        _ ≤ ((2 ^ (natLog2 x.floorNat + 1) : Nat) : Rat) := hle
        _ = (2 : Rat) ^ (((natLog2 x.floorNat : Nat) : Int) + 1) := hzp
    · rename_i h0 h1
      -- 0 < x.num and x < 1: the value is nt/d with nt < d
      have hnum' : 0 < x.num := lt_of_le_of_ne hnum (fun h => h0 h.symm)
      have hv1 : x.val < 1 := by
        have := fun h => h1 ((Q.val_le_iff (Q.ofNat 1) x (by exact Nat.one_pos) hden).mpr h)
        have hle := lt_of_not_le (fun hc => this (by rw [Q.val_ofNat]; exact_mod_cast hc))
        exact hle
      have hv0 : 0 < x.val := by
        unfold Q.val
        apply div_pos
        · exact_mod_cast hnum'
        · exact_mod_cast hden
      -- the ceiling of the inverse
      have hnt : 0 < x.num.toNat := by omega
      have hdn : x.num.toNat < x.den := by
        by_contra hcon
        have : (1 : Rat) ≤ x.val := by
          unfold Q.val
          rw [le_div_iff₀ (by exact_mod_cast hden)]
          have : (x.den : Int) ≤ x.num := by omega
          have hc : ((x.den : Nat) : Rat) ≤ ((x.num : Int) : Rat) := by exact_mod_cast this
          linarith
        linarith
      have hm2 : 2 ≤ x.ceilNatInv := by
        unfold Q.ceilNatInv
        rw [Nat.le_div_iff_mul_le hnt]
        omega
      obtain ⟨hc1, hlo, hhi⟩ := natClog2_bounds x.ceilNatInv hm2
      -- m * nt ≤ den + nt - 1 < den + nt, so nt * (m - 1) < den
      have hmnt : x.ceilNatInv * x.num.toNat ≤ x.den + x.num.toNat - 1 := by
        unfold Q.ceilNatInv
        exact Nat.div_mul_le_self _ _
      have hsplit : x.ceilNatInv * x.num.toNat
          = (x.ceilNatInv - 1) * x.num.toNat + x.num.toNat := by
        have hm1 : x.ceilNatInv = (x.ceilNatInv - 1) + 1 := by omega
        calc x.ceilNatInv * x.num.toNat
            = ((x.ceilNatInv - 1) + 1) * x.num.toNat := by rw [← hm1]
          _ = (x.ceilNatInv - 1) * x.num.toNat + x.num.toNat := by ring
      have hB : 2 ^ (natClog2 x.ceilNatInv - 1) ≤ x.ceilNatInv - 1 := by
        have hy : 2 ^ natClog2 x.ceilNatInv
            = 2 * 2 ^ (natClog2 x.ceilNatInv - 1) := by
          rw [← pow_succ']
          congr 1
          omega
        omega
      have hkey : x.num.toNat * 2 ^ (natClog2 x.ceilNatInv - 1) < x.den := by
        have h2 : (x.ceilNatInv - 1) * x.num.toNat ≤ x.den - 1 := by omega
        have h3 : x.num.toNat * 2 ^ (natClog2 x.ceilNatInv - 1)
            ≤ x.num.toNat * (x.ceilNatInv - 1) := Nat.mul_le_mul_left _ hB
        have h4 : x.num.toNat * (x.ceilNatInv - 1)
            = (x.ceilNatInv - 1) * x.num.toNat := Nat.mul_comm _ _
        omega
      have hd' : (0 : Rat) < (x.den : Rat) := by exact_mod_cast hden
      have hkeyq : ((x.num.toNat : Nat) : Rat)
            * (2 : Rat) ^ ((natClog2 x.ceilNatInv : Int) - 1)
          < (x.den : Rat) := by
        have hcast : ((2 ^ (natClog2 x.ceilNatInv - 1) : Nat) : Rat)
            = (2 : Rat) ^ ((natClog2 x.ceilNatInv : Int) - 1) := by
          rw [show ((natClog2 x.ceilNatInv : Int) - 1)
              = ((natClog2 x.ceilNatInv - 1 : Nat) : Int) from by omega]
          rw [zpow_natCast]
          push_cast
          ring
        rw [← hcast]
        exact_mod_cast hkey
      have hvx : x.val = ((x.num.toNat : Nat) : Rat) / (x.den : Rat) := by
        unfold Q.val
        congr 1
        exact_mod_cast (Int.toNat_of_nonneg (le_of_lt hnum')).symm
      have hmain : x.val < (2 : Rat) ^ ((1 : Int) - (natClog2 x.ceilNatInv : Int)) := by
        rw [hvx, div_lt_iff₀ hd']
        have hpos : (0 : Rat) < (2 : Rat) ^ ((1 : Int) - (natClog2 x.ceilNatInv : Int)) :=
          zpow_pos (by norm_num) _
        calc ((x.num.toNat : Nat) : Rat)
            = ((x.num.toNat : Nat) : Rat)
                * (2 : Rat) ^ ((natClog2 x.ceilNatInv : Int) - 1)
                * (2 : Rat) ^ ((1 : Int) - (natClog2 x.ceilNatInv : Int)) := by
              rw [mul_assoc, ← zpow_add₀ (by norm_num : (2 : Rat) ≠ 0)]
              rw [show (natClog2 x.ceilNatInv : Int) - 1
                  + (1 - (natClog2 x.ceilNatInv : Int)) = 0 from by ring]
              rw [zpow_zero, mul_one]
          _ < (x.den : Rat) * (2 : Rat) ^ ((1 : Int) - (natClog2 x.ceilNatInv : Int)) :=
              mul_lt_mul_of_pos_right hkeyq hpos
          _ = (2 : Rat) ^ ((1 : Int) - (natClog2 x.ceilNatInv : Int)) * (x.den : Rat) := by
              ring
      calc x.val < (2 : Rat) ^ ((1 : Int) - (natClog2 x.ceilNatInv : Int)) := hmain
        _ ≤ (2 : Rat) ^ (max (-(natClog2 x.ceilNatInv : Int)) (-127) + 1) := by
            apply zpow_le_zpow_right₀ (by norm_num)
            have := le_max_left (-(natClog2 x.ceilNatInv : Int)) (-127 : Int)
            omega

/-- When the extracted exponent is at least 16, the value is at least
65536: used to bound the shared exponent from the clamp hypothesis. -/
theorem floorLog2_lb (x : Q) (hden : 0 < x.den) (h16 : 16 ≤ floorLog2 x) :
    (65536 : Rat) ≤ x.val := by
  unfold floorLog2 at h16
  split at h16
  · omega
  · split at h16
    · rename_i h0 h1
      have h1' : (1 : Rat) ≤ x.val := by
        have := (Q.val_le_iff (Q.ofNat 1) x (by exact Nat.one_pos) hden).mp h1
        rw [Q.val_ofNat] at this
        exact_mod_cast this
      have hfl : (1 : Int) ≤ ⌊x.val⌋ := by
        rw [Int.le_floor]
        exact_mod_cast h1'
      have hfn : x.floorNat = ⌊x.val⌋.toNat := by
        unfold Q.floorNat
        rw [← Q.val_floor]
        rfl
      have h16' : 16 ≤ natLog2 x.floorNat := by exact_mod_cast h16
      obtain ⟨hlo, -⟩ := natLog2_bounds x.floorNat (by omega)
      have hpow : 65536 ≤ x.floorNat := by
        calc (65536 : Nat) = 2 ^ 16 := by norm_num
          _ ≤ 2 ^ natLog2 x.floorNat := Nat.pow_le_pow_right (by norm_num) h16'
          _ ≤ x.floorNat := hlo
      have hfl2 : (65536 : Int) ≤ ⌊x.val⌋ := by omega
      calc (65536 : Rat) = ((65536 : Int) : Rat) := by norm_num
        _ ≤ ((⌊x.val⌋ : Int) : Rat) := by exact_mod_cast hfl2
        _ ≤ x.val := Int.floor_le x.val
    · rename_i h0 h1
      have hm : max (-(natClog2 x.ceilNatInv : Int)) (-127) ≤ 0 := by
        apply max_le <;> omega
      omega

theorem e5Clamp_den_pos (x : Q) (hx : 0 < x.den) : 0 < (e5Clamp x).den := by
  unfold e5Clamp
  split
  · split
    · exact Nat.one_pos
    · exact hx
  · exact Nat.one_pos

theorem e5Clamp_num_nonneg (x : Q) : 0 ≤ (e5Clamp x).num := by
  unfold e5Clamp
  split
  · rename_i h
    split
    · norm_num [Q.ofNat]
    · unfold Q.lt Q.ofNat at h
      simp at h
      omega
  · norm_num [Q.ofNat]
/- Decomposition of the e5Fields pipeline for the bound analysis. -/

def e5Max (r g b : Q) : Q := Q.maxq (e5Clamp r) (Q.maxq (e5Clamp g) (e5Clamp b))

def e5Exp0 (m : Q) : Int := max 0 (floorLog2 m + 1 + 15)

def e5Denom0 (m : Q) : Q := Q.pow2 (e5Exp0 m - 15 - 9)

def e5MaxM (m : Q) : Int := (Q.add (Q.div m (e5Denom0 m)) ⟨1, 2⟩).floor

def e5ExpS (m : Q) : Int := if e5MaxM m = 512 then e5Exp0 m + 1 else e5Exp0 m

def e5DenomF (m : Q) : Q :=
  if e5MaxM m = 512 then Q.mul (e5Denom0 m) (Q.ofNat 2) else e5Denom0 m

def e5Mant (c m : Q) : Int := (Q.add (Q.div c (e5DenomF m)) ⟨1, 2⟩).floor

theorem e5Fields_eq (r g b : Q) :
    e5Fields r g b = (e5ExpS (e5Max r g b), e5Mant (e5Clamp r) (e5Max r g b),
      e5Mant (e5Clamp g) (e5Max r g b), e5Mant (e5Clamp b) (e5Max r g b)) := rfl

/-- floor(c/d + 1/2) evaluated in the rationals. -/
theorem e5Round_val (c d : Q) (hcden : 0 < c.den) (hdden : 0 < d.den)
    (hdnum : 0 < d.num) :
    (Q.add (Q.div c d) ⟨1, 2⟩).floor = ⌊c.val / d.val + 1 / 2⌋ := by
  rw [Q.val_floor, Q.val_add (Q.div c d) ⟨1, 2⟩ (Q.div_den_pos c d hcden hdnum)
    (by norm_num), Q.val_div c d hdnum, Q.val_half]

/-- The shared-exponent core bounds on the clamped maximum channel below
the overflow threshold 65472 = 511.5 * 2^7. -/
theorem e5Core (m : Q) (hden : 0 < m.den) (hnum : 0 ≤ m.num) (hub : m.val < 65472) :
    0 ≤ e5Exp0 m ∧ e5Exp0 m ≤ 31 ∧ 0 < (e5Denom0 m).val ∧
      m.val < 512 * (e5Denom0 m).val ∧ e5MaxM m ≤ 512 ∧
      (e5MaxM m = 512 → e5Exp0 m ≤ 30 ∧ m.val < (1025 / 2) * (e5Denom0 m).val) := by
  have hL15 : floorLog2 m ≤ 15 := by
    by_contra hc
    have := floorLog2_lb m hden (by omega)
    linarith
  have he0_0 : 0 ≤ e5Exp0 m := le_max_left 0 _
  have he0_31 : e5Exp0 m ≤ 31 := by
    unfold e5Exp0
    apply max_le <;> omega
  have hD : (e5Denom0 m).val = (2 : Rat) ^ (e5Exp0 m - 15 - 9) := by
    unfold e5Denom0
    rw [Q.val_pow2]
  have hDpos : (0 : Rat) < (e5Denom0 m).val := by
    rw [hD]
    exact zpow_pos (by norm_num) _
  have h512 : (512 : Rat) = (2 : Rat) ^ (9 : Int) := by
    rw [show (9 : Int) = ((9 : Nat) : Int) from rfl, zpow_natCast]
    norm_num
  have hVD : m.val < 512 * (e5Denom0 m).val := by
    rw [hD]
    have hub2 := floorLog2_ub m hden hnum
    rcases le_or_lt (floorLog2 m + 1 + 15) 0 with hx | hx
    · have he0 : e5Exp0 m = 0 := by
        unfold e5Exp0
        exact max_eq_left hx
      rw [he0]
      have h2 : (2 : Rat) ^ (floorLog2 m + 1) ≤ (2 : Rat) ^ (-(15 : Int)) :=
        zpow_le_zpow_right₀ (by norm_num) (by omega)
      have h3 : (512 : Rat) * (2 : Rat) ^ ((0 : Int) - 15 - 9)
          = (2 : Rat) ^ (-(15 : Int)) := by
        rw [h512, ← zpow_add₀ (by norm_num : (2 : Rat) ≠ 0)]
        norm_num
      rw [h3]
      linarith
    · have he0 : e5Exp0 m = floorLog2 m + 1 + 15 := by
        unfold e5Exp0
        exact max_eq_right (by omega)
      rw [he0]
      have h3 : (512 : Rat) * (2 : Rat) ^ (floorLog2 m + 1 + 15 - 15 - 9)
          = (2 : Rat) ^ (floorLog2 m + 1) := by
        rw [h512, ← zpow_add₀ (by norm_num : (2 : Rat) ≠ 0)]
        congr 1
        ring
      rw [h3]
      exact hub2
  have hval : e5MaxM m = ⌊m.val / (e5Denom0 m).val + 1 / 2⌋ :=
    e5Round_val m (e5Denom0 m) hden (Q.pow2_den_pos _) (Q.pow2_num_pos _)
  have hMM : e5MaxM m ≤ 512 := by
    rw [hval]
    have hdivlt : m.val / (e5Denom0 m).val < 512 := by
      rw [div_lt_iff₀ hDpos]
      linarith
    have hlt : (⌊m.val / (e5Denom0 m).val + 1 / 2⌋ : Int) < 513 := by
      rw [Int.floor_lt]
      push_cast
      linarith
    omega
  refine ⟨he0_0, he0_31, hDpos, hVD, hMM, ?_⟩
  intro h5
  have harg : m.val / (e5Denom0 m).val + 1 / 2 < 513 := by
    rw [hval] at h5
    have hfl := Int.lt_floor_add_one (m.val / (e5Denom0 m).val + 1 / 2)
    rw [h5] at hfl
    push_cast at hfl
    linarith
  have hup : m.val < (1025 / 2) * (e5Denom0 m).val := by
    have h1 : m.val / (e5Denom0 m).val < 1025 / 2 := by linarith
    rw [div_lt_iff₀ hDpos] at h1
    linarith
  refine ⟨?_, hup⟩
  by_contra hc
  have he31 : e5Exp0 m = 31 := by omega
  have hD128 : (e5Denom0 m).val = 128 := by
    rw [hD, he31]
    rw [show (31 : Int) - 15 - 9 = ((7 : Nat) : Int) from rfl, zpow_natCast]
    norm_num
  have hlow : (512 : Rat) ≤ m.val / (e5Denom0 m).val + 1 / 2 := by
    rw [hval] at h5
    have hfl := Int.floor_le (m.val / (e5Denom0 m).val + 1 / 2)
    rw [h5] at hfl
    push_cast at hfl
    linarith
  rw [hD128] at hlow
  have h1 : (1023 / 2 : Rat) ≤ m.val / 128 := by linarith
  rw [le_div_iff₀ (by norm_num : (0 : Rat) < 128)] at h1
  linarith

theorem e5ExpS_bounds (m : Q) (hden : 0 < m.den) (hnum : 0 ≤ m.num)
    (hub : m.val < 65472) : 0 ≤ e5ExpS m ∧ e5ExpS m ≤ 31 := by
  obtain ⟨h0, h31, -, -, -, hinc⟩ := e5Core m hden hnum hub
  unfold e5ExpS
  split
  · rename_i h
    obtain ⟨h30, -⟩ := hinc h
    omega
  · omega

theorem e5Mant_bounds (c m : Q) (hcden : 0 < c.den) (hcnum : 0 ≤ c.num)
    (hmden : 0 < m.den) (hmnum : 0 ≤ m.num) (hcm : c.val ≤ m.val)
    (hub : m.val < 65472) : 0 ≤ e5Mant c m ∧ e5Mant c m ≤ 511 := by
  obtain ⟨-, -, hDpos, hVD, hMM, hinc⟩ := e5Core m hmden hmnum hub
  have hc0 : 0 ≤ c.val := Q.val_nonneg c hcnum
  unfold e5Mant e5DenomF
  split
  · rename_i h512
    obtain ⟨-, hup⟩ := hinc h512
    have hd2den : 0 < (Q.mul (e5Denom0 m) (Q.ofNat 2)).den :=
      Nat.mul_pos (Q.pow2_den_pos _) Nat.one_pos
    have hd2num : 0 < (Q.mul (e5Denom0 m) (Q.ofNat 2)).num := by
      have := Q.pow2_num_pos (e5Exp0 m - 15 - 9)
      show 0 < (e5Denom0 m).num * (Q.ofNat 2).num
      have h2 : (Q.ofNat 2).num = 2 := rfl
      rw [h2]
      positivity
    have hval2 : (Q.mul (e5Denom0 m) (Q.ofNat 2)).val = (e5Denom0 m).val * 2 := by
      rw [Q.val_mul, Q.val_ofNat]
      norm_num
    rw [e5Round_val c (Q.mul (e5Denom0 m) (Q.ofNat 2)) hcden hd2den hd2num, hval2]
    constructor
    · rw [Int.le_floor]
      push_cast
      have h1 : 0 ≤ c.val / ((e5Denom0 m).val * 2) := div_nonneg hc0 (by linarith)
      linarith
    · have h1 : c.val < (1025 / 2) * (e5Denom0 m).val := lt_of_le_of_lt hcm hup
      have h2 : c.val / ((e5Denom0 m).val * 2) < 1025 / 4 := by
        rw [div_lt_iff₀ (by linarith)]
        linarith
      have h3 : (⌊c.val / ((e5Denom0 m).val * 2) + 1 / 2⌋ : Int) < 512 := by
        rw [Int.floor_lt]
        push_cast
        linarith
      omega
  · rename_i h512
    rw [e5Round_val c (e5Denom0 m) hcden (Q.pow2_den_pos _) (Q.pow2_num_pos _)]
    have hmval : e5MaxM m = ⌊m.val / (e5Denom0 m).val + 1 / 2⌋ :=
      e5Round_val m (e5Denom0 m) hmden (Q.pow2_den_pos _) (Q.pow2_num_pos _)
    constructor
    · rw [Int.le_floor]
      push_cast
      have h1 : 0 ≤ c.val / (e5Denom0 m).val := div_nonneg hc0 (le_of_lt hDpos)
      linarith
    · have hmono : ⌊c.val / (e5Denom0 m).val + 1 / 2⌋
          ≤ ⌊m.val / (e5Denom0 m).val + 1 / 2⌋ := by
        apply Int.floor_le_floor
        have h1 : c.val / (e5Denom0 m).val ≤ m.val / (e5Denom0 m).val := by gcongr
        linarith
      rw [← hmval] at hmono
      omega

/-- Packing the four fields with shifts and ors equals the weighted sum
once each field fits its bit range. -/
theorem pack_eq_sum (e bm gm rm : Nat) (he : e ≤ 31) (hbm : bm ≤ 511) (hgm : gm ≤ 511)
    (hrm : rm ≤ 511) :
    ((e <<< 27) ||| (bm <<< 18) ||| (gm <<< 9) ||| rm) % 2 ^ 32
      = e * 2 ^ 27 + bm * 2 ^ 18 + gm * 2 ^ 9 + rm := by
  rw [Nat.shiftLeft_eq, Nat.shiftLeft_eq, Nat.shiftLeft_eq]
  have h1 : (e * 2 ^ 27) % 2 ^ 27 = 0 := Nat.mul_mod_left _ _
  rw [lor_small h1 (show bm * 2 ^ 18 < 2 ^ 27 by omega)]
  have h2 : (e * 2 ^ 27 + bm * 2 ^ 18) % 2 ^ 18 = 0 := by
    have hsplit : e * 2 ^ 27 + bm * 2 ^ 18 = (e * 2 ^ 9 + bm) * 2 ^ 18 := by ring
    rw [hsplit]
    exact Nat.mul_mod_left _ _
  rw [lor_small h2 (show gm * 2 ^ 9 < 2 ^ 18 by omega)]
  have h3 : (e * 2 ^ 27 + bm * 2 ^ 18 + gm * 2 ^ 9) % 2 ^ 9 = 0 := by
    have hsplit : e * 2 ^ 27 + bm * 2 ^ 18 + gm * 2 ^ 9
        = (e * 2 ^ 18 + bm * 2 ^ 9 + gm) * 2 ^ 9 := by ring
    rw [hsplit]
    exact Nat.mul_mod_left _ _
  rw [lor_small h3 (show rm < 2 ^ 9 by omega)]
  exact Nat.mod_eq_of_lt (by omega)

/-- C7 (amended): on every well-formed rgb input whose channels clamp
below 65472 = 511.5 * 2^7 — the threshold at which the computed shared
exponent exceeds the five-bit field and the 32-bit packing wraps (see the
counterexample) — the encoder output is exactly the claim's packing
expShared * 2^27 + bm * 2^18 + gm * 2^9 + rm of the claim's field values,
and the decoder equals the claim's bit-field reading for every word. -/
theorem C7_e5b9g9r9_shared_exponent (r g b : Q) (hr : 0 < r.den) (hg : 0 < g.den)
    (hb : 0 < b.den)
    (hmax : (Q.maxq (e5Clamp r) (Q.maxq (e5Clamp g) (e5Clamp b))).lt (Q.ofNat 65472)) :
    e5b9g9r9FromRgb r g b = e5b9g9r9ClaimWord r g b ∧
    (∀ w : Nat, e5b9g9r9ToRgb w = e5b9g9r9ToRgbClaim w) := by
  constructor
  · have hrd := e5Clamp_den_pos r hr
    have hgd := e5Clamp_den_pos g hg
    have hbd := e5Clamp_den_pos b hb
    have hrn := e5Clamp_num_nonneg r
    have hgn := e5Clamp_num_nonneg g
    have hbn := e5Clamp_num_nonneg b
    have hmd : 0 < (e5Max r g b).den :=
      Q.maxq_den_pos _ _ hrd (Q.maxq_den_pos _ _ hgd hbd)
    have hmn : 0 ≤ (e5Max r g b).num :=
      Q.maxq_num_nonneg _ _ hrn (Q.maxq_num_nonneg _ _ hgn hbn)
    have hmval : (e5Max r g b).val
        = max (e5Clamp r).val (max (e5Clamp g).val (e5Clamp b).val) := by
      unfold e5Max
      rw [Q.maxq_val _ _ hrd (Q.maxq_den_pos _ _ hgd hbd), Q.maxq_val _ _ hgd hbd]
    have hub : (e5Max r g b).val < 65472 := by
      have h1 := (Q.val_lt_iff _ _ hmd (by exact Nat.one_pos)).mp hmax
      rw [Q.val_ofNat] at h1
      exact_mod_cast h1
    have hrle : (e5Clamp r).val ≤ (e5Max r g b).val := by
      rw [hmval]
      exact le_max_left _ _
    have hgle : (e5Clamp g).val ≤ (e5Max r g b).val := by
      rw [hmval]
      exact le_trans (le_max_left _ _) (le_max_right _ _)
    have hble : (e5Clamp b).val ≤ (e5Max r g b).val := by
      rw [hmval]
      exact le_trans (le_max_right _ _) (le_max_right _ _)
    obtain ⟨hes0, hes31⟩ := e5ExpS_bounds (e5Max r g b) hmd hmn hub
    obtain ⟨hrm0, hrm511⟩ :=
      e5Mant_bounds (e5Clamp r) (e5Max r g b) hrd hrn hmd hmn hrle hub
    obtain ⟨hgm0, hgm511⟩ :=
      e5Mant_bounds (e5Clamp g) (e5Max r g b) hgd hgn hmd hmn hgle hub
    obtain ⟨hbm0, hbm511⟩ :=
      e5Mant_bounds (e5Clamp b) (e5Max r g b) hbd hbn hmd hmn hble hub
    simp only [e5b9g9r9FromRgb, e5b9g9r9ClaimWord]
    rw [e5Fields_eq]
    show (((e5ExpS (e5Max r g b)).toNat <<< 27) |||
        ((e5Mant (e5Clamp b) (e5Max r g b)).toNat <<< 18) |||
        ((e5Mant (e5Clamp g) (e5Max r g b)).toNat <<< 9) |||
        (e5Mant (e5Clamp r) (e5Max r g b)).toNat) % 2 ^ 32
      = (e5ExpS (e5Max r g b)).toNat * 2 ^ 27
        + (e5Mant (e5Clamp b) (e5Max r g b)).toNat * 2 ^ 18
        + (e5Mant (e5Clamp g) (e5Max r g b)).toNat * 2 ^ 9
        + (e5Mant (e5Clamp r) (e5Max r g b)).toNat
    exact pack_eq_sum _ _ _ _ (by omega) (by omega) (by omega) (by omega)
  · intro w
    simp only [e5b9g9r9ToRgb, e5b9g9r9ToRgbClaim]
    have h511 : (511 : Nat) = 2 ^ 9 - 1 := by norm_num
    rw [h511, Nat.shiftRight_eq_div_pow, Nat.shiftRight_eq_div_pow,
      Nat.shiftRight_eq_div_pow, Nat.and_pow_two_sub_one_eq_mod,
      Nat.and_pow_two_sub_one_eq_mod, Nat.and_pow_two_sub_one_eq_mod]

/-- C7 witness: the amended encoder and decoder identities applied at
rgb = (1, 2, 4) and at the word 12345. -/
theorem C7_witness :
    e5b9g9r9FromRgb (Q.ofNat 1) (Q.ofNat 2) (Q.ofNat 4) =
      e5b9g9r9ClaimWord (Q.ofNat 1) (Q.ofNat 2) (Q.ofNat 4) ∧
    e5b9g9r9ToRgb 12345 = e5b9g9r9ToRgbClaim 12345 :=
  ⟨(C7_e5b9g9r9_shared_exponent (Q.ofNat 1) (Q.ofNat 2) (Q.ofNat 4)
      (by decide) (by decide) (by decide) (by decide)).1,
    (C7_e5b9g9r9_shared_exponent (Q.ofNat 1) (Q.ofNat 2) (Q.ofNat 4)
      (by decide) (by decide) (by decide) (by decide)).2 12345⟩

end Imgio
